import Mathlib

/-!
Verification development for the pystra load-combination and calibration
engine (`loadcomb.py`, `calibration.py`).

Python floats are modelled as `ℚ`; distribution objects are opaque values
carrying a name; the external FORM reliability oracle, `scipy.optimize.fsolve`
and `np.linalg.solve` are abstract collaborators supplied as fields of the
`Calibration` record.  Python runtime exceptions are modelled with `Except`.
-/

set_option autoImplicit false
set_option maxHeartbeats 1000000

universe u v

/-- Python runtime errors raised by the embedded code paths. -/
inductive PyErr where
  | attributeError
  | keyError
  | indexError
  | typeError
  | nameError
deriving DecidableEq

/-- A pystra marginal-distribution object: a stable `name` plus an opaque
payload standing for the identity of the underlying distribution. -/
structure PDist where
  name : String
  payload : ℕ
deriving DecidableEq

/-- A pystra `Constant`: a named fixed numeric value (`getValue`). -/
structure Constant where
  name : String
  value : ℚ
deriving DecidableEq

/-- Any object that can be added to a `StochasticModel` via `addVariable`:
either a distribution or a constant. -/
inductive RVObj where
  | dist (d : PDist)
  | const (c : Constant)
deriving DecidableEq

/-- Python `dict` update for one key: replaces the value in place if the key
exists, appends at the end otherwise. -/
def dictSet {α : Type u} (m : List (String × α)) (k : String) (v : α) :
    List (String × α) :=
  if (m.map Prod.fst).contains k then
    m.map (fun p => if p.1 = k then (k, v) else p)
  else m ++ [(k, v)]

/-- Build a Python dict from a list of key-value pairs (later pairs win,
first-insertion position is kept), as a dict comprehension does. -/
def dictOf {α : Type u} (l : List (String × α)) : List (String × α) :=
  l.foldl (fun m p => dictSet m p.1 p.2) []

/-- Python `d[k]` / `k in d` support: first (unique) binding of `k`. -/
def dlookup {α : Type u} (m : List (String × α)) (k : String) : Option α :=
  (m.find? (fun p => p.1 = k)).map Prod.snd

/-- `d.keys()`. -/
def dkeys {α : Type u} (m : List (String × α)) : List String :=
  m.map Prod.fst

/-- A partial keyword-argument valuation (Python `**kwargs` of floats). -/
abbrev Kw := String → Option ℚ

/-- `LoadCombination` after `__init__`: the limit-state function, the nested
combination-variable dictionary (name to max and point-in-time
distributions), the name-keyed resistance and static dictionaries, the
optional constants dictionary, and the case table.  The correlation matrix
and analysis options only affect the external oracle and are omitted. -/
structure LoadCombination where
  lsf : Kw → ℚ
  distributions_comb : List (String × PDist × PDist)
  distributions_resistance : List (String × PDist)
  distributions_other : Option (List (String × PDist))
  constant : Option (List (String × Constant))
  dict_comb_cases : List (String × List String)

/-- `LoadCombination.__init__` from the raw constructor arguments: builds the
name-keyed dictionaries `{xx.name: xx for xx in ...}`. -/
def mkLoadCombination (lsf : Kw → ℚ)
    (dict_dist_comb : List (String × PDist × PDist))
    (list_dist_resist : List PDist)
    (list_dist_other : Option (List PDist))
    (list_const : Option (List Constant))
    (dict_comb_cases : List (String × List String)) : LoadCombination :=
  { lsf := lsf
    distributions_comb := dict_dist_comb
    distributions_resistance := dictOf (list_dist_resist.map (fun d => (d.name, d)))
    distributions_other := list_dist_other.map (fun l => dictOf (l.map (fun d => (d.name, d))))
    constant := list_const.map (fun l => dictOf (l.map (fun c => (c.name, c))))
    dict_comb_cases := dict_comb_cases }

/-- `self.distributions_max`. -/
def LoadCombination.distributions_max (lc : LoadCombination) : List (String × PDist) :=
  lc.distributions_comb.map (fun p => (p.1, p.2.1))

/-- `self.distributions_pit`. -/
def LoadCombination.distributions_pit (lc : LoadCombination) : List (String × PDist) :=
  lc.distributions_comb.map (fun p => (p.1, p.2.2))

/-- `self.label_comb_cases`. -/
def LoadCombination.label_comb_cases (lc : LoadCombination) : List String :=
  dkeys lc.dict_comb_cases

/-- `self.label_comb_vrs`. -/
def LoadCombination.label_comb_vrs (lc : LoadCombination) : List String :=
  lc.distributions_comb.map Prod.fst

/-- `self.label_resist`. -/
def LoadCombination.label_resist (lc : LoadCombination) : List String :=
  dkeys lc.distributions_resistance

/-- `self.label_other` (empty when no static variables were supplied). -/
def LoadCombination.label_other (lc : LoadCombination) : List String :=
  match lc.distributions_other with
  | some m => dkeys m
  | none => []

/-- `self.label_all`: resistance, static and combination labels, extended by
the constant labels when constants were declared. -/
def LoadCombination.label_all (lc : LoadCombination) : List String :=
  lc.label_resist ++ lc.label_other ++ lc.label_comb_vrs ++
    (match lc.constant with
     | some m => dkeys m
     | none => [])

/-- Inner loop body of `_create_dict_dist_comb` for one case: all resistance
variables, then the static variables (when supplied), then every combination
variable with its max distribution when its name is in the case's governing
list `loadc` and its point-in-time distribution otherwise. -/
def LoadCombination.caseDict (lc : LoadCombination) (loadc : List String) :
    List (String × PDist) :=
  let d1 := lc.distributions_resistance.foldl (fun d p => dictSet d p.1 p.2) []
  let d2 :=
    match lc.distributions_other with
    | some m => m.foldl (fun d p => dictSet d p.1 p.2) d1
    | none => d1
  lc.distributions_comb.foldl
    (fun d p => dictSet d p.1 (if loadc.contains p.1 then p.2.1 else p.2.2)) d2

/-- `_create_dict_dist_comb`: the per-case distribution dictionaries. -/
def LoadCombination.createDictDistComb (lc : LoadCombination) :
    List (String × List (String × PDist)) :=
  lc.dict_comb_cases.foldl (fun dd p => dictSet dd p.1 (lc.caseDict p.2)) []

/-- The stochastic-model assembly performed by `run_reliability_case`: the
declared constants (each swappable by a keyword override), then the per-case
distribution dictionary entries (each swappable by a keyword override), in
`addVariable` order.  The subsequent correlation realignment and FORM run are
the external oracle and are not part of the assembled variable list. -/
def LoadCombination.runReliabilityCase (lc : LoadCombination) (lcn : String)
    (kwargs : List (String × RVObj)) : Except PyErr (List RVObj) :=
  let constPart : List RVObj :=
    match lc.constant with
    | none => []
    | some cs => cs.map (fun p => (dlookup kwargs p.1).getD (RVObj.const p.2))
  match dlookup lc.createDictDistComb lcn with
  | none => Except.error PyErr.keyError
  | some dictDist =>
    Except.ok
      (constPart ++ dictDist.map (fun p => (dlookup kwargs p.1).getD (RVObj.dist p.2)))

/-- `run_reliability_case` resolves a `None` case identifier to the first
declared case before assembling (an empty case table raises). -/
def LoadCombination.runReliabilityModel (lc : LoadCombination)
    (lcn : Option String) (kwargs : List (String × RVObj)) :
    Except PyErr (List RVObj) :=
  match lcn with
  | some c => lc.runReliabilityCase c kwargs
  | none =>
    match lc.label_comb_cases with
    | [] => Except.error PyErr.indexError
    | c :: _ => lc.runReliabilityCase c kwargs

/-- The keyword-argument dictionary built by `eval_lsf_kwargs` before the LSF
call: missing non-constant names from `label_all` are set to `set_value`,
then each constant missing from the kwargs is bound to its registered value
when `set_const` is `None` and to `set_const` otherwise.  The loop over
`self.constant.items()` runs unconditionally, so `constant = None` raises an
`AttributeError`. -/
def LoadCombination.buildKwargs (lc : LoadCombination) (set_value : ℚ)
    (set_const : Option ℚ) (kwargs : Kw) : Except PyErr Kw :=
  match lc.constant with
  | none => Except.error PyErr.attributeError
  | some cs =>
    let kw1 : Kw := fun x =>
      if lc.label_all.contains x ∧ kwargs x = none ∧ ¬ (dkeys cs).contains x then
        some set_value
      else kwargs x
    let kw2 : Kw := fun x =>
      if (dkeys cs).contains x ∧ kw1 x = none then
        some (match set_const with
              | none => ((dlookup cs x).map Constant.value).getD 0
              | some c => c)
      else kw1 x
    Except.ok kw2

/-- `eval_lsf_kwargs`: evaluate the LSF on the completed kwargs. -/
def LoadCombination.evalLsfKwargs (lc : LoadCombination) (set_value : ℚ)
    (set_const : Option ℚ) (kwargs : Kw) : Except PyErr ℚ :=
  (lc.buildKwargs set_value set_const kwargs).map lc.lsf

/-- `np.isclose(a, b, atol)` with numpy's default relative tolerance. -/
def npIsClose (a b atol : ℚ) : Bool :=
  |a - b| ≤ atol + (1 / 100000) * |b|

/-- Map with the element's position, starting from `n`. -/
def mapWithIdx {α : Type u} {β : Type v} (f : ℕ → α → β) : ℕ → List α → List β
  | _, [] => []
  | n, x :: xs => f n x :: mapWithIdx f (n + 1) xs

/-- `np.fill_diagonal(rows, v)`: set every existing `(i, i)` entry to `v`. -/
def fillDiagonal (v : ℚ) (rows : List (List ℚ)) : List (List ℚ) :=
  mapWithIdx (fun i r => mapWithIdx (fun j x => if i = j then v else x) 0 r) 0 rows

/-- Maximum of a list of rationals (`0` junk value on the empty list, which
never arises in use). -/
def listMax : List ℚ → ℚ
  | [] => 0
  | [x] => x
  | x :: y :: t => max x (listMax (y :: t))

/-- The entries present in column `j` (rows too short to reach `j` contribute
nothing), in row order. -/
def colEntries (j : ℕ) : List (List ℚ) → List ℚ
  | [] => []
  | r :: rs =>
    match r[j]? with
    | some x => x :: colEntries j rs
    | none => colEntries j rs

/-- `df.max()` for column `j`. -/
def colMax (rows : List (List ℚ)) (j : ℕ) : ℚ :=
  listMax (colEntries j rows)

/-- `df.clip(df.max(), axis=1)`: clip every entry from below at its column
maximum. -/
def clipLowerColMax (rows : List (List ℚ)) : List (List ℚ) :=
  rows.map (fun r => mapWithIdx (fun j x => max x (colMax rows j)) 0 r)

/-- A pandas DataFrame of rationals: row labels, column labels, and row-major
data positionally aligned with them. -/
structure DF where
  index : List String
  cols : List String
  data : List (List ℚ)
deriving DecidableEq

/-- `df.loc[i, c]` (0 on labels that are absent; the embedded pipeline only
reads labels that are present). -/
def DF.lookup (d : DF) (i c : String) : ℚ :=
  (d.data.getD (d.index.indexOf i) []).getD (d.cols.indexOf c) 0

/-- Elementwise `a / b`, aligned by labels; the pipeline divides frames whose
labels agree on every entry it later reads. -/
def DF.div (a b : DF) : DF :=
  { index := a.index, cols := a.cols,
    data := a.index.map (fun i => a.cols.map (fun c => a.lookup i c / b.lookup i c)) }

/-- Elementwise `a * b`, aligned by labels. -/
def DF.mul (a b : DF) : DF :=
  { index := a.index, cols := a.cols,
    data := a.index.map (fun i => a.cols.map (fun c => a.lookup i c * b.lookup i c)) }

/-- `df[cs]`: column selection / reordering. -/
def DF.select (d : DF) (cs : List String) : DF :=
  { index := d.index, cols := cs,
    data := d.index.map (fun i => cs.map (fun c => d.lookup i c)) }

/-- `pd.concat((a, b), axis=1)` for frames sharing an index. -/
def DF.concatCols (a b : DF) : DF :=
  { index := a.index, cols := a.cols ++ b.cols,
    data := a.index.map (fun i => a.cols.map (a.lookup i) ++ b.cols.map (b.lookup i)) }

/-- `df[c] = vals` on a frame (replaces the column in place when present,
appends it otherwise). -/
def DF.setCol (d : DF) (c : String) (vals : List ℚ) : DF :=
  if d.cols.contains c then
    { d with data := mapWithIdx (fun i r => r.set (d.cols.indexOf c) (vals.getD i 0)) 0 d.data }
  else
    { index := d.index, cols := d.cols ++ [c],
      data := mapWithIdx (fun i r => r ++ [vals.getD i 0]) 0 d.data }

/-- `get_psi_max`: zero the diagonal of a copy, then clip every entry from
below at the (post-zeroing) column maximum. -/
def get_psi_max (dfpsi : DF) : DF :=
  { dfpsi with data := clipLowerColMax (fillDiagonal 0 dfpsi.data) }

/-- `get_phi_max`: clip every entry from below at its column maximum. -/
def get_phi_max (dfphi : DF) : DF :=
  { dfphi with data := clipLowerColMax dfphi.data }

/-- The result of one external FORM run (`form.getBeta`, `form.getAlpha`,
`form.transform.u_to_x` composed with the model marginals,
`form.getDesignPoint(False)`, `form.model.getNames()` and
`form.model.getConstants().keys()`). -/
structure FormRes where
  beta : ℚ
  alpha : List ℚ
  uToX : List ℚ → List ℚ
  designPoint : List ℚ
  names : List String
  constNames : List String

/-- What `scipy.optimize.fsolve` computes internally: the final iterate `x`
and the integer status flag `ier` (`1` means converged).  A call without
`full_output` returns only `x`. -/
structure SolverOutcome where
  x : ℚ
  ier : ℕ

/-- The arguments the calibration code passes to `fsolve`. -/
structure SolveParams where
  x0 : ℚ
  xtol : ℚ
  maxfev : Option ℕ
  factor : Option ℚ
deriving DecidableEq

/-- `Calibration` after `__init__`.  `rel` abstracts
`LoadCombination.run_reliability_case` (load-case name and frozen design
parameter to FORM result), `fsolve` abstracts `scipy.optimize.fsolve`, and
`linsolve` abstracts `np.linalg.solve`; all three are deterministic external
collaborators. -/
structure Calibration where
  lc : LoadCombination
  beta_t : ℚ
  calib_method : String
  est_method : String
  print_output : Bool
  df_nom : DF
  cvar : String
  startz : Option ℚ
  rel : Option String → ℚ → FormRes
  fsolve : (ℚ → ℚ) → SolveParams → SolverOutcome
  linsolve : List (List ℚ) → List ℚ → List ℚ

/-- `self.label_R` (copied from the LoadCombination object by `_set_labels`). -/
def Calibration.label_R (cal : Calibration) : List String :=
  cal.lc.label_resist

/-- `self.label_other`. -/
def Calibration.label_other (cal : Calibration) : List String :=
  cal.lc.label_other

/-- `self.label_comb_vrs`. -/
def Calibration.label_comb_vrs (cal : Calibration) : List String :=
  cal.lc.label_comb_vrs

/-- `self.label_comb_cases`. -/
def Calibration.label_comb_cases (cal : Calibration) : List String :=
  cal.lc.label_comb_cases

/-- `self.label_all`. -/
def Calibration.label_all (cal : Calibration) : List String :=
  cal.lc.label_all

/-- `self.label_S = self.label_other + self.label_comb_vrs`. -/
def Calibration.label_S (cal : Calibration) : List String :=
  cal.label_other ++ cal.label_comb_vrs

/-- The kwargs for an `eval_lsf_kwargs` call on the columns `labels` of a
single-row table `row` (`df[labels].to_dict("records")[0]`). -/
def selectKw (labels : List String) (row : String → ℚ) : Kw :=
  fun x => if labels.contains x then some (row x) else none

/-- `calc_design_param_Xst`: evaluate the LSF on the static and combination
columns of the design point, then on the resistance columns, and return the
absolute ratio. -/
def Calibration.calc_design_param_Xst (cal : Calibration) (row : String → ℚ) :
    Except PyErr ℚ := do
  let sum_loadeff ← cal.lc.evalLsfKwargs 0 none
    (selectKw (cal.label_other ++ cal.label_comb_vrs) row)
  let sum_resist ← cal.lc.evalLsfKwargs 0 none (selectKw cal.label_R row)
  Except.ok |sum_loadeff / sum_resist|

/-- Deduplication keeping first occurrences, as
`sorted(set(l), key=l.index)` produces for a list `l`. -/
def firstDedup (l : List String) : List String :=
  l.foldl (fun acc x => if acc.contains x then acc else acc ++ [x]) []

/-- `_get_df_Xstar_labels`: the model's variable names minus its constants,
in first-occurrence order. -/
def getDfXstarLabels (form : FormRes) : List String :=
  (firstDedup form.names).filter (fun x => ¬ form.constNames.contains x)

/-- Log line printed by `obj_func` inside `_calibration_optimize`. -/
def optIterMsg (z : ℚ) : String :=
  "Zk = " ++ toString z

/-- `_calibration_optimize`: hand `beta_t - rel(z).beta` to `fsolve` (without
`full_output`, so only the iterate `x` of the solver outcome is consumed),
then re-evaluate the oracle at the returned iterate.  The prints of
`obj_func` happen inside the external solver's calls and are not collected
in the returned log. -/
def Calibration.calibration_optimize (cal : Calibration) (lcn : Option String)
    (z0 target_beta : ℚ) (printOutput : Bool) (xtol : ℚ)
    (max_iter : Option ℕ) : (ℚ × FormRes) × List String :=
  let obj_func : ℚ → ℚ × List String := fun Zk =>
    let form := cal.rel lcn Zk
    (target_beta - form.beta, if printOutput then [optIterMsg Zk] else [])
  let params : SolveParams :=
    match max_iter with
    | none => { x0 := z0, xtol := xtol, maxfev := none, factor := some (1 / 100) }
    | some m => { x0 := z0, xtol := xtol, maxfev := some m, factor := none }
  let Zk_opt := (cal.fsolve (fun z => (obj_func z).1) params).x
  let form := cal.rel lcn Zk_opt
  ((Zk_opt, form), [])

/-- Loop state of `_calibration_alpha`: current design parameter, FORM
result, reliability index, sensitivity vector, iteration count and printed
output. -/
structure AlphaState where
  z_cal : ℚ
  form_cal : FormRes
  beta_cal : ℚ
  alpha_cal : List ℚ
  n_iter : ℕ
  log : List String

/-- Iteration banner printed by `_calibration_alpha`. -/
def alphaIterMsg (n : ℕ) : String :=
  "==== Iteration " ++ toString n ++ " ===="

/-- The unconditional message printed when the iteration cap is reached. -/
def alphaAbortMsg (m : ℕ) : String :=
  "Maximum iterations " ++ toString m ++ " exceeded! Aborting!"

/-- One body of the `while` loop of `_calibration_alpha`: project
`u = alpha * beta_t` (the source uses `self.beta_t` here), transform to
physical space, derive the design parameter from the candidate design point,
re-run the oracle with the design parameter frozen there, and increment the
iteration counter. -/
def Calibration.alphaBody (cal : Calibration) (lcn : Option String)
    (printOutput : Bool) (columns : List String) (st : AlphaState) :
    Except PyErr AlphaState :=
  (cal.calc_design_param_Xst
      (fun c =>
        (st.form_cal.uToX (st.alpha_cal.map (fun a => a * cal.beta_t))).getD
          (columns.indexOf c) 0)).map
    (fun z =>
      { z_cal := z, form_cal := cal.rel lcn z,
        beta_cal := (cal.rel lcn z).beta, alpha_cal := (cal.rel lcn z).alpha,
        n_iter := st.n_iter + 1,
        log := st.log ++
          (if printOutput then
            [alphaIterMsg (st.n_iter + 1), "z = " ++ toString z]
          else []) })

/-- The `while not np.isclose(beta_cal, self.beta_t, atol=abstol)` loop of
`_calibration_alpha`.  `fuel` equals `max_iter - n_iter` throughout, so the
`fuel = 0` fallback is unreachable whenever `1 ≤ max_iter`: the
`n_iter == max_iter` break fires first. -/
def Calibration.alphaLoop (cal : Calibration) (lcn : Option String)
    (printOutput : Bool) (abstol : ℚ) (max_iter : ℕ) (columns : List String) :
    ℕ → AlphaState → Except PyErr ((ℚ × FormRes) × List String)
  | fuel, st =>
    if npIsClose st.beta_cal cal.beta_t abstol then
      Except.ok ((st.z_cal, st.form_cal), st.log)
    else
      match fuel with
      | 0 => Except.ok ((st.z_cal, st.form_cal), st.log)
      | fuel + 1 => do
        let st' ← cal.alphaBody lcn printOutput columns st
        if st'.n_iter = max_iter then
          Except.ok ((st'.z_cal, st'.form_cal), st'.log ++ [alphaAbortMsg max_iter])
        else
          cal.alphaLoop lcn printOutput abstol max_iter columns fuel st'

/-- `_calibration_alpha`: initialise from the oracle at `z0`, then iterate
the alpha-projection until `np.isclose(beta, self.beta_t)` or the iteration
cap.  The `target_beta` argument is accepted but (as in the source) never
used: every comparison and projection uses `self.beta_t`. -/
def Calibration.calibration_alpha (cal : Calibration) (lcn : Option String)
    (z0 _target_beta : ℚ) (printOutput : Bool) (abstol : ℚ) (max_iter : ℕ) :
    Except PyErr ((ℚ × FormRes) × List String) :=
  let form0 := cal.rel lcn z0
  let columns := getDfXstarLabels form0
  let st0 : AlphaState :=
    { z_cal := z0, form_cal := form0, beta_cal := form0.beta,
      alpha_cal := form0.alpha, n_iter := 0,
      log := if printOutput then [alphaIterMsg 0] else [] }
  cal.alphaLoop lcn printOutput abstol max_iter columns max_iter st0

/-- One step of the per-case loop of `_calibrate_design_param`: dispatch on
`calib_method` ("optimize" or "alpha"; anything else leaves `zcal` unbound
and raises a `NameError` at the append), collecting the calibrated design
parameter, the FORM object and the printed output. -/
def Calibration.calibStep (cal : Calibration) (startz : ℚ)
    (acc : List ℚ × List FormRes × List String) (lcn : String) :
    Except PyErr (List ℚ × List FormRes × List String) :=
  if cal.calib_method = "optimize" then
    let r := cal.calibration_optimize (some lcn) startz cal.beta_t
      cal.print_output (1 / 10000) none
    Except.ok (acc.1 ++ [r.1.1], acc.2.1 ++ [r.1.2], acc.2.2 ++ r.2)
  else if cal.calib_method = "alpha" then
    (cal.calibration_alpha (some lcn) startz cal.beta_t
        cal.print_output (1 / 10000) 100).map
      (fun r => (acc.1 ++ [r.1.1], acc.2.1 ++ [r.1.2], acc.2.2 ++ r.2))
  else Except.error PyErr.nameError

/-- `_calibrate_design_param`: resolve the starting value from the
registered calibration constant (a `None` constants dictionary or a missing
key raises), then calibrate every load case with the configured method,
collecting the designs, FORM objects and printed output.  An unrecognised
`calib_method` leaves `zcal` unbound and raises a `NameError` at the
`append`. -/
def Calibration.startzResolved (cal : Calibration) : Except PyErr ℚ :=
  match cal.startz with
  | some z => Except.ok z
  | none =>
    match cal.lc.constant with
    | none => Except.error PyErr.typeError
    | some cs =>
      match dlookup cs cal.cvar with
      | none => Except.error PyErr.keyError
      | some c => Except.ok c.value

def Calibration.calibrate_design_param (cal : Calibration) :
    Except PyErr ((List ℚ × List FormRes) × List String) := do
  let startz ← cal.startzResolved
  let res ← cal.lc.label_comb_cases.foldlM (cal.calibStep startz) ([], [], [])
  Except.ok ((res.1, res.2.1),
    res.2.2 ++ (if cal.print_output then ["Calibrated reliabilities"] else []))

/-- `_get_df_Xstar`: design points of the FORM objects as a DataFrame, with
columns taken from the first object's non-constant variable names (an empty
list raises an `IndexError`). -/
def getDfXstar (list_form_obj : List FormRes) (idx : List String) :
    Except PyErr DF := do
  match list_form_obj with
  | [] => Except.error PyErr.indexError
  | f0 :: _ =>
    Except.ok
      { index := idx, cols := getDfXstarLabels f0,
        data := list_form_obj.map (fun f => f.designPoint) }

/-- State written by `_run_calibration`: the calibrated design-point table
(with the design parameter appended as column `z`), the per-case results and
the printed output. -/
structure RunCalibResult where
  dfXstarcal : DF
  list_z : List ℚ
  list_form : List FormRes
  log : List String

/-- `_run_calibration`. -/
def Calibration.run_calibration (cal : Calibration) :
    Except PyErr RunCalibResult := do
  let r ← cal.calibrate_design_param
  let dfX ← getDfXstar r.1.2 cal.lc.label_comb_cases
  Except.ok
    { dfXstarcal := dfX.setCol "z" r.1.1, list_z := r.1.1,
      list_form := r.1.2, log := r.2 }

/-- `calc_Xst_nom`: divide the design points by the nominal values, then for
each case copy its governing-column entries over the same columns of every
other case's row (sequentially, reading the current frame), and finally
restore the original column order. -/
def Calibration.calc_Xst_nom (cal : Calibration) (dfXstar : DF) : DF :=
  let d0 := dfXstar.div cal.df_nom
  let d1 := cal.lc.dict_comb_cases.foldl
    (fun d p =>
      { d with data := d.index.map (fun r => d.cols.map (fun c =>
          if p.2.contains c ∧ r ≠ p.1 then d.lookup p.1 c else d.lookup r c)) })
    d0
  d1.select dfXstar.cols

/-- `calc_phi`: the resistance-variable slice. -/
def Calibration.calc_phi (cal : Calibration) (dfXstnom : DF) : DF :=
  dfXstnom.select cal.label_R

/-- `calc_gamma`: the static and the combination-variable slices. -/
def Calibration.calc_gamma (cal : Calibration) (dfXstnom : DF) : DF × DF :=
  (dfXstnom.select cal.label_other, dfXstnom.select cal.label_comb_vrs)

/-- `calc_pg_coeff`: the coefficient estimation method. -/
def Calibration.calc_pg_coeff (cal : Calibration) (dfXst : DF)
    (printOutput : Bool) : (DF × DF × DF) × List String :=
  let df_Xst_nom := cal.calc_Xst_nom dfXst
  let df_phi := cal.calc_phi df_Xst_nom
  let dfg := cal.calc_gamma df_Xst_nom
  let df_gamma := dfg.1.concatCols dfg.2
  let df_psi := ((dfXst.div df_gamma).div cal.df_nom).select cal.label_S
  ((df_phi, df_gamma, df_psi),
    if printOutput then ["phi gamma psi coefficient tables"] else [])

/-- `calc_phiRz_egS_vect`: per case, the LSF evaluated on the design-point
row restricted to every variable (and the design parameter) except the other
cases' governing combination variables. -/
def Calibration.calc_phiRz_egS_vect (cal : Calibration) (dfXstar : DF) :
    Except PyErr (List ℚ) :=
  dfXstar.index.mapM (fun comb => do
    let s_label ←
      match dlookup cal.lc.dict_comb_cases comb with
      | none => Except.error PyErr.keyError
      | some v => Except.ok v
    let label_all_rvs :=
      cal.label_R ++ cal.label_comb_vrs ++ cal.label_other ++ [cal.cvar]
    let kw : Kw := fun x =>
      if label_all_rvs.contains x ∧
          ¬ (cal.label_comb_vrs.contains x ∧ ¬ s_label.contains x) then
        some (dfXstar.lookup comb x)
      else none
    cal.lc.evalLsfKwargs 0 none kw)

/-- One row of the LHS matrix before negation and diagonal zeroing:
`lsf(loads except other cases' governing) - lsf(static only)`, broadcast
over the combination-variable columns. -/
def Calibration.epgSRow (cal : Calibration) (dfgammanom : DF) (comb : String) :
    Except PyErr (List ℚ) := do
  let s_label ←
    match dlookup cal.lc.dict_comb_cases comb with
    | none => Except.error PyErr.keyError
    | some v => Except.ok v
  let kwComb : Kw := fun x =>
    if cal.label_S.contains x ∧ ¬ s_label.contains x then
      some (dfgammanom.lookup comb x)
    else none
  let kwOther : Kw :=
    if 0 < cal.label_other.length then
      fun x =>
        if cal.label_other.contains x then some (dfgammanom.lookup comb x)
        else none
    else fun _ => none
  let a ← cal.lc.evalLsfKwargs 0 none kwComb
  let b ← cal.lc.evalLsfKwargs 0 none kwOther
  Except.ok (List.replicate cal.label_comb_vrs.length (a - b))

/-- `calc_epgS_mat`: one `epgSRow` per case, then negate the matrix and zero
its diagonal. -/
def Calibration.calc_epgS_mat (cal : Calibration) (dfgammanom : DF) :
    Except PyErr (List (List ℚ)) := do
  let rows ← dfgammanom.index.mapM (cal.epgSRow dfgammanom)
  Except.ok (fillDiagonal 0 (rows.map (fun r => r.map (fun x => -x))))

/-- `_get_psi_row_mat` on a 1-D solve result: each row is the psi vector
with the diagonal entry forced to `1`, preceded by `1.0` columns for the
static variables. -/
def getPsiRowMat (num_other_vrs : ℕ) (psi : List ℚ) : List (List ℚ) :=
  (List.range psi.length).map
    (fun i => List.replicate num_other_vrs 1 ++ psi.set i 1)

/-- The three factor tables computed by `calc_pg_matrix` (`np.linalg.solve`
is the abstract `linsolve` collaborator). -/
def Calibration.pgMatrixTables (cal : Calibration) (dfXst : DF) :
    Except PyErr (DF × DF × DF) := do
  let df_Xst_nom := cal.calc_Xst_nom dfXst
  let df_phi := cal.calc_phi df_Xst_nom
  let dfg := cal.calc_gamma df_Xst_nom
  let df_gamma := dfg.1.concatCols dfg.2
  let phiRz_egS ← cal.calc_phiRz_egS_vect dfXst
  let df_gamma_nom := (df_phi.concatCols df_gamma).mul cal.df_nom
  let epgS_mat ← cal.calc_epgS_mat df_gamma_nom
  let psi := cal.linsolve epgS_mat phiRz_egS
  let psi_mat := getPsiRowMat cal.label_other.length psi
  let df_psi : DF :=
    { index := df_gamma.index, cols := df_gamma.cols, data := psi_mat }
  Except.ok (df_phi, df_gamma, df_psi)

/-- `calc_pg_matrix`: the matrix estimation method.  The print guard in the
source reads `self.print_output`, not the `print_output` parameter, which is
therefore unused. -/
def Calibration.calc_pg_matrix (cal : Calibration) (dfXst : DF)
    (_printOutput : Bool) : Except PyErr ((DF × DF × DF) × List String) :=
  (cal.pgMatrixTables dfXst).map
    (fun t => (t, if cal.print_output then ["phi gamma psi matrix tables"] else []))

/-- `_estimate_factors_coeff`. -/
def Calibration.estimate_factors_coeff (cal : Calibration) (set_max : Bool)
    (dfXstarcal : DF) : (DF × DF × DF) × List String :=
  let r := cal.calc_pg_coeff dfXstarcal cal.print_output
  ((if set_max then get_phi_max r.1.1 else r.1.1,
    r.1.2.1,
    if set_max then get_psi_max r.1.2.2 else r.1.2.2), r.2)

/-- `_estimate_factors_matrix`. -/
def Calibration.estimate_factors_matrix (cal : Calibration) (set_max : Bool)
    (dfXstarcal : DF) : Except PyErr ((DF × DF × DF) × List String) := do
  let r ← cal.calc_pg_matrix dfXstarcal cal.print_output
  Except.ok ((if set_max then get_phi_max r.1.1 else r.1.1,
    r.1.2.1, r.1.2.2), r.2)

/-- The attributes `run` leaves on the object, with the factor tables
`Option`al because an unrecognised estimation method never assigns them. -/
structure RunResult where
  dfXstarcal : DF
  df_phi : Option DF
  df_gamma : Option DF
  df_psi : Option DF
  log : List String

/-- The estimation-method dispatch at the end of `Calibration.run`: any value
other than `"coeff"` and `"matrix"` falls through both branches without
assigning the factor tables and without raising. -/
def Calibration.runDispatch (cal : Calibration) (em : String) (set_max : Bool)
    (rc : RunCalibResult) : Except PyErr RunResult :=
  if em = "coeff" then
    let r := cal.estimate_factors_coeff set_max rc.dfXstarcal
    Except.ok
      { dfXstarcal := rc.dfXstarcal, df_phi := some r.1.1,
        df_gamma := some r.1.2.1, df_psi := some r.1.2.2,
        log := rc.log ++ r.2 }
  else if em = "matrix" then do
    let r ← cal.estimate_factors_matrix set_max rc.dfXstarcal
    Except.ok
      { dfXstarcal := rc.dfXstarcal, df_phi := some r.1.1,
        df_gamma := some r.1.2.1, df_psi := some r.1.2.2,
        log := rc.log ++ r.2 }
  else
    Except.ok
      { dfXstarcal := rc.dfXstarcal, df_phi := none, df_gamma := none,
        df_psi := none, log := rc.log }

/-- `Calibration.run`: always run the calibration itself, then dispatch on
the estimation method. -/
def Calibration.run (cal : Calibration) (est_method : Option String)
    (set_max : Bool) : Except PyErr RunResult := do
  let em :=
    match est_method with
    | none => cal.est_method
    | some e => e
  let rc ← cal.run_calibration
  cal.runDispatch em set_max rc


/-! ### Dictionary lemmas -/

theorem dictSet_fresh {α : Type u} (m : List (String × α)) (k : String) (v : α)
    (h : k ∉ m.map Prod.fst) : dictSet m k v = m ++ [(k, v)] := by
  unfold dictSet
  rw [if_neg]
  simpa using h

theorem mem_dictSet {α : Type u} {m : List (String × α)} {k : String} {v : α}
    {q : String × α} (h : q ∈ dictSet m k v) : q ∈ m ∨ q = (k, v) := by
  unfold dictSet at h
  split at h
  · rcases List.mem_map.mp h with ⟨p, hp, hq⟩
    by_cases hpk : p.1 = k
    · rw [if_pos hpk] at hq
      exact Or.inr hq.symm
    · rw [if_neg hpk] at hq
      exact Or.inl (hq ▸ hp)
  · rcases List.mem_append.mp h with h1 | h1
    · exact Or.inl h1
    · exact Or.inr (by simpa using h1)

theorem nodup_map_pairwise {α : Type u} {β : Type v} (g : α → β) (l : List α)
    (h : (l.map g).Nodup) : l.Pairwise (fun a b => g a ≠ g b) := by
  induction l with
  | nil => simp
  | cons a l ih =>
    rw [List.map_cons, List.nodup_cons] at h
    refine List.Pairwise.cons ?_ (ih h.2)
    intro b hb hgb
    exact h.1 (hgb ▸ List.mem_map_of_mem g hb)

theorem foldl_dictSet_map {α : Type u} {β : Type v} (f : β → String × α) :
    ∀ (l : List β) (acc : List (String × α)),
      l.Pairwise (fun a b => (f a).1 ≠ (f b).1) →
      (∀ p ∈ l, (f p).1 ∉ acc.map Prod.fst) →
      l.foldl (fun d p => dictSet d (f p).1 (f p).2) acc = acc ++ l.map f
  | [], acc, _, _ => by simp
  | p :: l, acc, hnd, hfresh => by
    have hstep : dictSet acc (f p).1 (f p).2 = acc ++ [f p] :=
      dictSet_fresh _ _ _ (hfresh p (by simp))
    rcases List.pairwise_cons.mp hnd with ⟨hhead, htail⟩
    have hfresh' : ∀ q ∈ l, (f q).1 ∉ (acc ++ [f p]).map Prod.fst := by
      intro q hq
      rw [List.map_append, List.mem_append]
      rintro (h1 | h1)
      · exact hfresh q (List.mem_cons_of_mem _ hq) h1
      · have : (f q).1 = (f p).1 := by simpa using h1
        exact hhead q hq this.symm
    calc (p :: l).foldl (fun d q => dictSet d (f q).1 (f q).2) acc
        = l.foldl (fun d q => dictSet d (f q).1 (f q).2) (acc ++ [f p]) := by
          rw [List.foldl_cons, hstep]
      _ = (acc ++ [f p]) ++ l.map f := foldl_dictSet_map f l (acc ++ [f p]) htail hfresh'
      _ = acc ++ (p :: l).map f := by simp

theorem mem_foldl_dictSet_map {α : Type u} {β : Type v} (f : β → String × α) :
    ∀ (l : List β) (acc : List (String × α)) (q : String × α),
      q ∈ l.foldl (fun d p => dictSet d (f p).1 (f p).2) acc →
      q ∈ acc ∨ ∃ p ∈ l, q = f p
  | [], _, q, h => Or.inl (by simpa using h)
  | p :: l, acc, q, h => by
    rcases mem_foldl_dictSet_map f l (dictSet acc (f p).1 (f p).2) q
        (by simpa using h) with h1 | h1
    · rcases mem_dictSet h1 with h2 | h2
      · exact Or.inl h2
      · exact Or.inr ⟨p, by simp, by simpa using h2⟩
    · rcases h1 with ⟨r, hr, hq⟩
      exact Or.inr ⟨r, List.mem_cons_of_mem _ hr, hq⟩

theorem dictOf_eq {α : Type u} (l : List (String × α))
    (h : (l.map Prod.fst).Nodup) : dictOf l = l := by
  have hp := nodup_map_pairwise Prod.fst l h
  have := foldl_dictSet_map (fun p : String × α => p) l [] hp (by intro p _; simp)
  simpa [dictOf] using this

theorem dlookup_eq_some_mem {α : Type u} {m : List (String × α)} {k : String}
    {v : α} (h : dlookup m k = some v) : (k, v) ∈ m := by
  unfold dlookup at h
  cases hf : m.find? (fun p => p.1 = k) with
  | none => simp [hf] at h
  | some q =>
    have hq : q ∈ m := List.mem_of_find?_eq_some hf
    have hk : q.1 = k := by simpa using List.find?_some hf
    rw [hf] at h
    have hv : q.2 = v := by simpa using h
    have : q = (k, v) := Prod.ext hk hv
    exact this ▸ hq

theorem dlookup_map_value {α : Type u} {β : Type v} (g : String → α → β) :
    ∀ (l : List (String × α)) (k : String),
      dlookup (l.map (fun p => (p.1, g p.1 p.2))) k =
        (l.find? (fun p => p.1 = k)).map (fun p => g p.1 p.2)
  | [], _ => rfl
  | p :: l, k => by
    by_cases hk : p.1 = k
    · simp [dlookup, List.find?, hk]
    · simpa [dlookup, List.find?, hk] using dlookup_map_value g l k

/-! ### The completed kwargs of `eval_lsf_kwargs` -/

/-- The bindings the spec describes for `eval_lsf_kwargs`: each supplied name
keeps its supplied value; each declared constant not supplied is bound to its
registered value when `set_const` is `None` and to `set_const` otherwise;
each non-constant declared variable name not supplied is bound to
`set_value`; all other names stay absent. -/
def c3Bindings (lc : LoadCombination) (cs : List (String × Constant))
    (set_value : ℚ) (set_const : Option ℚ) (kwargs : Kw) : Kw := fun x =>
  match kwargs x with
  | some v => some v
  | none =>
    if (dkeys cs).contains x then
      some (match set_const with
            | none => ((dlookup cs x).map Constant.value).getD 0
            | some c => c)
    else if lc.label_all.contains x then some set_value
    else none

theorem buildKwargs_eq_c3Bindings (lc : LoadCombination)
    (cs : List (String × Constant)) (hcs : lc.constant = some cs)
    (set_value : ℚ) (set_const : Option ℚ) (kwargs : Kw) :
    lc.buildKwargs set_value set_const kwargs =
      Except.ok (c3Bindings lc cs set_value set_const kwargs) := by
  unfold LoadCombination.buildKwargs
  rw [hcs]
  refine congrArg Except.ok ?_
  funext x
  simp only [c3Bindings]
  cases hkx : kwargs x with
  | some v => simp [hkx]
  | none =>
    by_cases hc : x ∈ dkeys cs
    · simp [hkx, hc]
    · by_cases ha : x ∈ lc.label_all
      · simp [hkx, hc, ha]
      · simp [hkx, hc, ha]

theorem eval_eq_c3Bindings (lc : LoadCombination)
    (cs : List (String × Constant)) (hcs : lc.constant = some cs)
    (set_value : ℚ) (set_const : Option ℚ) (kwargs : Kw) :
    lc.evalLsfKwargs set_value set_const kwargs =
      Except.ok (lc.lsf (c3Bindings lc cs set_value set_const kwargs)) := by
  unfold LoadCombination.evalLsfKwargs
  rw [buildKwargs_eq_c3Bindings lc cs hcs]
  rfl

/-! ### Concrete instances used by witnesses and counterexamples -/

/-- A separable LSF `z * R - G - L - W` reading named kwargs. -/
def lsfW : Kw → ℚ := fun m =>
  (m "z").getD 0 * (m "R").getD 0 - (m "G").getD 0 - (m "L").getD 0 - (m "W").getD 0

/-- A two-combination-variable load combination with a static variable and a
declared design-parameter constant. -/
def lcW : LoadCombination :=
  mkLoadCombination lsfW
    [("L", ⟨"Lmax", 0⟩, ⟨"Lpit", 1⟩), ("W", ⟨"Wmax", 2⟩, ⟨"Wpit", 3⟩)]
    [⟨"R", 4⟩]
    (some [⟨"G", 5⟩])
    (some [⟨"z", 3 / 2⟩])
    [("LC1", ["L"]), ("LC2", ["W"])]

/-- The constants dictionary of `lcW`. -/
def csW : List (String × Constant) := [("z", ⟨"z", 3 / 2⟩)]

/-- A load combination constructed with `list_const=None`. -/
def lcN : LoadCombination :=
  mkLoadCombination lsfW [("L", ⟨"Lmax", 0⟩, ⟨"Lpit", 1⟩)] [⟨"R", 4⟩]
    none none [("LC1", ["L"])]

/-- A fixed FORM oracle result used by concrete calibration instances. -/
def formW : FormRes :=
  { beta := 3, alpha := [1, 0, 0, 0], uToX := fun u => u,
    designPoint := [1, 1, 1, 1], names := ["z", "R", "G", "L", "W"],
    constNames := ["z"] }

/-- Nominal values for `lcW`'s variables. -/
def dfNomW : DF :=
  { index := ["LC1", "LC2"], cols := ["R", "G", "L", "W"],
    data := [[1, 1, 1, 1], [1, 1, 1, 1]] }

/-- A concrete calibration instance over `lcW` with trivial collaborators. -/
def calW : Calibration :=
  { lc := lcW, beta_t := 3, calib_method := "optimize", est_method := "matrix",
    print_output := false, df_nom := dfNomW, cvar := "z", startz := none,
    rel := fun _ _ => formW, fsolve := fun _ p => ⟨p.x0, 1⟩,
    linsolve := fun _ v => v }

/-- A single-row design point for `lcW`. -/
def rowW : String → ℚ := fun x => if x = "R" then 2 else 1

/-- A kwargs valuation supplying only `R`. -/
def kwW : Kw := fun x => if x = "R" then some 2 else none

/-! ### C9 -/

/-- C9: if the LoadCombination was constructed with `list_const=None`, every
call to `eval_lsf_kwargs` fails with an attribute error, because the loop
over the constants dictionary runs unconditionally on the `None` value; LSF
evaluation therefore has the unstated precondition that constants were
declared. -/
theorem c9_eval_requires_constants (lc : LoadCombination)
    (h : lc.constant = none) (set_value : ℚ) (set_const : Option ℚ)
    (kwargs : Kw) :
    lc.evalLsfKwargs set_value set_const kwargs =
      Except.error PyErr.attributeError := by
  unfold LoadCombination.evalLsfKwargs LoadCombination.buildKwargs
  rw [h]
  rfl

theorem c9_witness :
    lcN.constant = none ∧
      lcN.evalLsfKwargs 0 none (fun _ => none) =
        Except.error PyErr.attributeError :=
  ⟨rfl, c9_eval_requires_constants lcN rfl 0 none (fun _ => none)⟩

/-! ### C3 -/

/-- C3: for every partial value mapping, `eval_lsf_kwargs` evaluates the LSF
with each supplied name bound to its supplied value, each non-constant
variable name not supplied bound to `set_value`, and each declared constant
not supplied bound to its registered value when `set_const` is `None` and to
`set_const` otherwise. -/
theorem c3_eval_lsf_kwargs_bindings (lc : LoadCombination)
    (cs : List (String × Constant)) (hcs : lc.constant = some cs)
    (set_value : ℚ) (set_const : Option ℚ) (kwargs : Kw) :
    lc.evalLsfKwargs set_value set_const kwargs =
      Except.ok (lc.lsf (c3Bindings lc cs set_value set_const kwargs)) :=
  eval_eq_c3Bindings lc cs hcs set_value set_const kwargs

theorem c3_witness :
    lcW.constant = some csW ∧
      lcW.evalLsfKwargs 0 none kwW =
        Except.ok (lcW.lsf (c3Bindings lcW csW 0 none kwW)) :=
  ⟨rfl, c3_eval_lsf_kwargs_bindings lcW csW rfl 0 none kwW⟩

/-! ### C2 -/

/-- The spec's valuation for one side of the design-point split: the `side`
columns keep the design-point values, all other declared variables are
filled with `0`, and constants take their registered values. -/
def c2SideKw (lc : LoadCombination) (cs : List (String × Constant))
    (side : List String) (row : String → ℚ) : Kw := fun x =>
  if side.contains x then some (row x)
  else if (dkeys cs).contains x then
    some (((dlookup cs x).map Constant.value).getD 0)
  else if lc.label_all.contains x then some 0
  else none

theorem c3Bindings_selectKw (lc : LoadCombination)
    (cs : List (String × Constant)) (side : List String) (row : String → ℚ) :
    c3Bindings lc cs 0 none (selectKw side row) = c2SideKw lc cs side row := by
  funext x
  simp only [c3Bindings, c2SideKw, selectKw]
  by_cases hside : x ∈ side
  · simp [hside]
  · simp [hside]

/-- C2: for a single-row design-point table, `calc_design_param_Xst` returns
the absolute value of the ratio of the LSF evaluated with only the static
and combination variables present (all other variables filled with 0, the
constants at their registered values) to the LSF evaluated with only the
resistance variables present under the same filling. -/
theorem c2_design_param_ratio (cal : Calibration)
    (cs : List (String × Constant)) (hcs : cal.lc.constant = some cs)
    (row : String → ℚ) :
    cal.calc_design_param_Xst row =
      Except.ok
        |cal.lc.lsf (c2SideKw cal.lc cs (cal.label_other ++ cal.label_comb_vrs) row) /
          cal.lc.lsf (c2SideKw cal.lc cs cal.label_R row)| := by
  unfold Calibration.calc_design_param_Xst
  rw [eval_eq_c3Bindings cal.lc cs hcs, eval_eq_c3Bindings cal.lc cs hcs,
    c3Bindings_selectKw, c3Bindings_selectKw]
  rfl

theorem c2_witness :
    calW.lc.constant = some csW ∧
      calW.calc_design_param_Xst rowW =
        Except.ok
          |calW.lc.lsf (c2SideKw calW.lc csW (calW.label_other ++ calW.label_comb_vrs) rowW) /
            calW.lc.lsf (c2SideKw calW.lc csW calW.label_R rowW)| :=
  ⟨rfl, c2_design_param_ratio calW csW rfl rowW⟩

/-! ### C1 -/

theorem match_dlookup_getD {α : Type u} (kwargs : List (String × α)) (k : String)
    (d : α) :
    (match dlookup kwargs k with | some o => o | none => d) =
      (dlookup kwargs k).getD d := by
  cases dlookup kwargs k <;> rfl

/-- The declared names, in group order: resistance, static, combination,
constants. -/
def c1Names (list_dist_resist : List PDist) (list_dist_other : Option (List PDist))
    (dict_dist_comb : List (String × PDist × PDist))
    (list_const : Option (List Constant)) : List String :=
  list_dist_resist.map PDist.name ++ (list_dist_other.getD []).map PDist.name ++
    dict_dist_comb.map Prod.fst ++ (list_const.getD []).map Constant.name

/-- The claim's description of the assembled per-case model: all declared
constants, every resistance variable, every static variable (when supplied),
and every combination variable bound to its maximum distribution exactly
when its name is in the case's governing list and to its point-in-time
distribution otherwise — each entry replaced entirely by a keyword override
given under its name. -/
def c1AssembledModel (kwargs : List (String × RVObj))
    (list_const : Option (List Constant)) (list_dist_resist : List PDist)
    (list_dist_other : Option (List PDist))
    (dict_dist_comb : List (String × PDist × PDist)) (governing : List String) :
    List RVObj :=
  (list_const.getD []).map (fun c => (dlookup kwargs c.name).getD (RVObj.const c))
  ++ list_dist_resist.map (fun d => (dlookup kwargs d.name).getD (RVObj.dist d))
  ++ (list_dist_other.getD []).map
      (fun d => (dlookup kwargs d.name).getD (RVObj.dist d))
  ++ dict_dist_comb.map (fun p =>
      (dlookup kwargs p.1).getD
        (RVObj.dist (if governing.contains p.1 then p.2.1 else p.2.2)))

theorem caseDict_eq (lc : LoadCombination) (governing : List String)
    (hnd : (dkeys lc.distributions_resistance ++
      (lc.distributions_other.getD []).map Prod.fst ++
      lc.distributions_comb.map Prod.fst).Nodup) :
    lc.caseDict governing =
      lc.distributions_resistance ++ lc.distributions_other.getD [] ++
        lc.distributions_comb.map
          (fun p => (p.1, if governing.contains p.1 then p.2.1 else p.2.2)) := by
  rcases List.nodup_append.mp hnd with ⟨hAB, hC, hABC⟩
  rcases List.nodup_append.mp hAB with ⟨hA, hB, hAB2⟩
  unfold LoadCombination.caseDict
  have h1 : lc.distributions_resistance.foldl (fun d p => dictSet d p.1 p.2) [] =
      lc.distributions_resistance := by
    have := foldl_dictSet_map (fun p : String × PDist => p)
      lc.distributions_resistance [] (nodup_map_pairwise Prod.fst _ hA)
      (by intro p _; simp)
    simpa using this
  have h2 : (match lc.distributions_other with
      | some m => m.foldl (fun d p => dictSet d p.1 p.2) lc.distributions_resistance
      | none => lc.distributions_resistance) =
      lc.distributions_resistance ++ lc.distributions_other.getD [] := by
    cases ho : lc.distributions_other with
    | none => simp
    | some m =>
      have hBm : (m.map Prod.fst).Nodup := by simpa [ho] using hB
      have hfresh : ∀ p ∈ m, p.1 ∉ lc.distributions_resistance.map Prod.fst := by
        intro p hp hmem
        exact hAB2 hmem (by simpa [ho] using List.mem_map_of_mem Prod.fst hp)
      have := foldl_dictSet_map (fun p : String × PDist => p) m
        lc.distributions_resistance (nodup_map_pairwise Prod.fst _ hBm) hfresh
      simpa using this
  have hfreshC : ∀ p ∈ lc.distributions_comb,
      p.1 ∉ (lc.distributions_resistance ++ lc.distributions_other.getD []).map Prod.fst := by
    intro p hp hmem
    have hpC : p.1 ∈ lc.distributions_comb.map Prod.fst :=
      List.mem_map_of_mem Prod.fst hp
    rw [List.map_append] at hmem
    exact hABC hmem hpC
  have h3 := foldl_dictSet_map
    (fun p : String × PDist × PDist =>
      (p.1, if governing.contains p.1 then p.2.1 else p.2.2))
    lc.distributions_comb
    (lc.distributions_resistance ++ lc.distributions_other.getD [])
    (nodup_map_pairwise Prod.fst _ hC) hfreshC
  show lc.distributions_comb.foldl
      (fun d p => dictSet d p.1 (if governing.contains p.1 then p.2.1 else p.2.2))
      (match lc.distributions_other with
        | some m => m.foldl (fun d p => dictSet d p.1 p.2)
            (lc.distributions_resistance.foldl (fun d p => dictSet d p.1 p.2) [])
        | none => lc.distributions_resistance.foldl (fun d p => dictSet d p.1 p.2) []) =
    lc.distributions_resistance ++ lc.distributions_other.getD [] ++
      lc.distributions_comb.map
        (fun p => (p.1, if governing.contains p.1 then p.2.1 else p.2.2))
  rw [h1, h2]
  simpa using h3

theorem createDictDistComb_lookup (lc : LoadCombination)
    (hcases : (lc.dict_comb_cases.map Prod.fst).Nodup) (lcn : String) :
    dlookup lc.createDictDistComb lcn =
      (dlookup lc.dict_comb_cases lcn).map lc.caseDict := by
  unfold LoadCombination.createDictDistComb
  have hfold := foldl_dictSet_map
    (fun p : String × List String => (p.1, lc.caseDict p.2))
    lc.dict_comb_cases [] (nodup_map_pairwise Prod.fst _ hcases)
    (by intro p _; simp)
  have hfold' : lc.dict_comb_cases.foldl
      (fun dd p => dictSet dd p.1 (lc.caseDict p.2)) [] =
      lc.dict_comb_cases.map (fun p => (p.1, lc.caseDict p.2)) := by
    simpa using hfold
  rw [hfold', dlookup_map_value (fun _ v => lc.caseDict v)]
  unfold dlookup
  cases lc.dict_comb_cases.find? (fun p => p.1 = lcn) <;> rfl

theorem runModel_eq_general (lc : LoadCombination) (lcn : String)
    (governing : List String)
    (hnd : (dkeys lc.distributions_resistance ++
      (lc.distributions_other.getD []).map Prod.fst ++
      lc.distributions_comb.map Prod.fst).Nodup)
    (hcases : (lc.dict_comb_cases.map Prod.fst).Nodup)
    (hgov : dlookup lc.dict_comb_cases lcn = some governing)
    (kwargs : List (String × RVObj)) :
    lc.runReliabilityModel (some lcn) kwargs =
      Except.ok
        ((lc.constant.getD []).map
            (fun p => (dlookup kwargs p.1).getD (RVObj.const p.2))
         ++ lc.distributions_resistance.map
              (fun p => (dlookup kwargs p.1).getD (RVObj.dist p.2))
         ++ (lc.distributions_other.getD []).map
              (fun p => (dlookup kwargs p.1).getD (RVObj.dist p.2))
         ++ lc.distributions_comb.map
              (fun p => (dlookup kwargs p.1).getD
                (RVObj.dist (if governing.contains p.1 then p.2.1 else p.2.2)))) := by
  have hdd : dlookup lc.createDictDistComb lcn = some (lc.caseDict governing) := by
    rw [createDictDistComb_lookup lc hcases lcn, hgov]
    rfl
  have hcd := caseDict_eq lc governing hnd
  show lc.runReliabilityCase lcn kwargs = _
  unfold LoadCombination.runReliabilityCase
  rw [hdd, hcd]
  cases hconst : lc.constant with
  | none => simp [List.map_append, List.append_assoc]
  | some cs => simp [List.map_append, List.append_assoc]

/-- C1: for every declared combination case, the model assembled by
`run_reliability_case` is exactly: all declared constants, every resistance
variable, every static variable (when supplied), and every combination
variable bound to its maximum distribution if and only if its name appears
in that case's governing list (its point-in-time distribution otherwise) —
with any keyword override given by name replacing that variable or constant
object entirely.  Declared names are assumed pairwise distinct (the data
model declares names to be unique keys). -/
theorem c1_per_case_model (lsf : Kw → ℚ)
    (dict_dist_comb : List (String × PDist × PDist))
    (list_dist_resist : List PDist) (list_dist_other : Option (List PDist))
    (list_const : Option (List Constant))
    (dict_comb_cases : List (String × List String))
    (hnames : (c1Names list_dist_resist list_dist_other dict_dist_comb list_const).Nodup)
    (hcases : (dict_comb_cases.map Prod.fst).Nodup)
    (lcn : String) (governing : List String)
    (hgov : dlookup dict_comb_cases lcn = some governing)
    (kwargs : List (String × RVObj)) :
    (mkLoadCombination lsf dict_dist_comb list_dist_resist list_dist_other
        list_const dict_comb_cases).runReliabilityModel (some lcn) kwargs =
      Except.ok (c1AssembledModel kwargs list_const list_dist_resist
        list_dist_other dict_dist_comb governing) := by
  unfold c1Names at hnames
  rcases List.nodup_append.mp hnames with ⟨hABC, hD, _⟩
  rcases List.nodup_append.mp hABC with ⟨hAB, hC, hABC2⟩
  rcases List.nodup_append.mp hAB with ⟨hA, hB, hAB2⟩
  have hA' : ((list_dist_resist.map (fun d => (d.name, d))).map Prod.fst).Nodup := by
    rw [List.map_map]
    exact hA
  have hres : (mkLoadCombination lsf dict_dist_comb list_dist_resist
      list_dist_other list_const dict_comb_cases).distributions_resistance =
      list_dist_resist.map (fun d => (d.name, d)) := dictOf_eq _ hA'
  have hoth : (mkLoadCombination lsf dict_dist_comb list_dist_resist
      list_dist_other list_const dict_comb_cases).distributions_other.getD [] =
      (list_dist_other.getD []).map (fun d => (d.name, d)) := by
    cases list_dist_other with
    | none => rfl
    | some l =>
      have hB' : ((l.map (fun d => (d.name, d))).map Prod.fst).Nodup := by
        rw [List.map_map]
        exact hB
      exact dictOf_eq _ hB'
  have hconstSeg : ((mkLoadCombination lsf dict_dist_comb list_dist_resist
      list_dist_other list_const dict_comb_cases).constant.getD []).map
        (fun p => (dlookup kwargs p.1).getD (RVObj.const p.2)) =
      (list_const.getD []).map
        (fun c => (dlookup kwargs c.name).getD (RVObj.const c)) := by
    cases list_const with
    | none => rfl
    | some cl =>
      have hD' : ((cl.map (fun c => (c.name, c))).map Prod.fst).Nodup := by
        rw [List.map_map]
        exact hD
      show ((dictOf (cl.map (fun c => (c.name, c)))).map _) = _
      rw [dictOf_eq _ hD', List.map_map]
      rfl
  have hnd : (dkeys (mkLoadCombination lsf dict_dist_comb list_dist_resist
      list_dist_other list_const dict_comb_cases).distributions_resistance ++
      ((mkLoadCombination lsf dict_dist_comb list_dist_resist list_dist_other
        list_const dict_comb_cases).distributions_other.getD []).map Prod.fst ++
      (mkLoadCombination lsf dict_dist_comb list_dist_resist list_dist_other
        list_const dict_comb_cases).distributions_comb.map Prod.fst).Nodup := by
    unfold dkeys
    rw [hres, hoth, List.map_map, List.map_map]
    exact hABC
  rw [runModel_eq_general _ lcn governing hnd hcases hgov kwargs]
  unfold c1AssembledModel
  rw [hconstSeg, hres, hoth, List.map_map, List.map_map]
  rfl

theorem c1_witness :
    (c1Names [⟨"R", 4⟩] (some [⟨"G", 5⟩])
        [("L", ⟨"Lmax", 0⟩, ⟨"Lpit", 1⟩), ("W", ⟨"Wmax", 2⟩, ⟨"Wpit", 3⟩)]
        (some [⟨"z", 3 / 2⟩])).Nodup ∧
      lcW.runReliabilityModel (some "LC1") [("z", RVObj.const ⟨"z", 2⟩)] =
        Except.ok (c1AssembledModel [("z", RVObj.const ⟨"z", 2⟩)]
          (some [⟨"z", 3 / 2⟩]) [⟨"R", 4⟩] (some [⟨"G", 5⟩])
          [("L", ⟨"Lmax", 0⟩, ⟨"Lpit", 1⟩), ("W", ⟨"Wmax", 2⟩, ⟨"Wpit", 3⟩)]
          ["L"]) :=
  ⟨by decide,
    c1_per_case_model lsfW
      [("L", ⟨"Lmax", 0⟩, ⟨"Lpit", 1⟩), ("W", ⟨"Wmax", 2⟩, ⟨"Wpit", 3⟩)]
      [⟨"R", 4⟩] (some [⟨"G", 5⟩]) (some [⟨"z", 3 / 2⟩])
      [("LC1", ["L"]), ("LC2", ["W"])] (by decide) (by decide)
      "LC1" ["L"] (by decide) [("z", RVObj.const ⟨"z", 2⟩)]⟩

/-! ### C4 -/

theorem caseDict_key_mem (lc : LoadCombination) (g : List String)
    (p : String × PDist) (hp : p ∈ lc.caseDict g) :
    p.1 ∈ lc.label_resist ++ lc.label_other ++ lc.label_comb_vrs := by
  have hres : ∀ q : String × PDist,
      q ∈ lc.distributions_resistance.foldl (fun d r => dictSet d r.1 r.2) [] →
      q.1 ∈ lc.label_resist := by
    intro q hq
    rcases mem_foldl_dictSet_map (fun r : String × PDist => r)
        lc.distributions_resistance [] q hq with h3 | h3
    · simp at h3
    · rcases h3 with ⟨r, hr, hqr⟩
      exact hqr ▸ List.mem_map_of_mem Prod.fst hr
  unfold LoadCombination.caseDict at hp
  rcases mem_foldl_dictSet_map
      (fun r : String × PDist × PDist =>
        (r.1, if g.contains r.1 then r.2.1 else r.2.2))
      lc.distributions_comb _ p hp with h1 | h1
  · cases ho : lc.distributions_other with
    | none =>
      rw [ho] at h1
      exact List.mem_append_left _ (List.mem_append_left _ (hres p h1))
    | some m =>
      rw [ho] at h1
      rcases mem_foldl_dictSet_map (fun r : String × PDist => r) m _ p h1 with h3 | h3
      · exact List.mem_append_left _ (List.mem_append_left _ (hres p h3))
      · rcases h3 with ⟨r, hr, hqr⟩
        have hmem : p.1 ∈ lc.label_other := by
          unfold LoadCombination.label_other
          rw [ho]
          exact hqr ▸ List.mem_map_of_mem Prod.fst hr
        exact List.mem_append_left _ (List.mem_append_right _ hmem)
  · rcases h1 with ⟨q, hq, hpq⟩
    rw [show p.1 = q.1 by rw [hpq]]
    exact List.mem_append_right _ (List.mem_map_of_mem Prod.fst hq)

theorem createDictDistComb_value (lc : LoadCombination) (lcn : String)
    (d : List (String × PDist))
    (h : dlookup lc.createDictDistComb lcn = some d) :
    ∃ g, d = lc.caseDict g := by
  have hmem := dlookup_eq_some_mem h
  unfold LoadCombination.createDictDistComb at hmem
  rcases mem_foldl_dictSet_map
      (fun p : String × List String => (p.1, lc.caseDict p.2))
      lc.dict_comb_cases [] _ hmem with h1 | h1
  · simp at h1
  · rcases h1 with ⟨p, _, hp⟩
    exact ⟨p.2, congrArg Prod.snd hp⟩

theorem label_all_of_core (lc : LoadCombination) (n : String)
    (h : n ∈ lc.label_resist ++ lc.label_other ++ lc.label_comb_vrs) :
    n ∈ lc.label_all := by
  unfold LoadCombination.label_all
  exact List.mem_append_left _ h

theorem runCase_kw_agree (lc : LoadCombination) (lcn : String)
    (kw kw' : List (String × RVObj))
    (h : ∀ n, n ∈ lc.label_all → dlookup kw n = dlookup kw' n) :
    lc.runReliabilityCase lcn kw = lc.runReliabilityCase lcn kw' := by
  have hvar : ∀ d : List (String × PDist),
      dlookup lc.createDictDistComb lcn = some d →
      d.map (fun p => (dlookup kw p.1).getD (RVObj.dist p.2)) =
        d.map (fun p => (dlookup kw' p.1).getD (RVObj.dist p.2)) := by
    intro d hD
    refine List.map_congr_left ?_
    intro p hp
    rcases createDictDistComb_value lc lcn d hD with ⟨g, hg⟩
    rw [h p.1 (label_all_of_core lc p.1 (caseDict_key_mem lc g p (hg ▸ hp)))]
  unfold LoadCombination.runReliabilityCase
  cases hc : lc.constant with
  | none =>
    cases hD : dlookup lc.createDictDistComb lcn with
    | none => rfl
    | some d =>
      show Except.ok (([] : List RVObj) ++ _) = Except.ok (([] : List RVObj) ++ _)
      rw [hvar d hD]
  | some cs =>
    have hconst : cs.map (fun p => (dlookup kw p.1).getD (RVObj.const p.2)) =
        cs.map (fun p => (dlookup kw' p.1).getD (RVObj.const p.2)) := by
      refine List.map_congr_left ?_
      intro p hp
      have hmem : p.1 ∈ lc.label_all := by
        unfold LoadCombination.label_all
        refine List.mem_append_right _ ?_
        rw [hc]
        exact List.mem_map_of_mem Prod.fst hp
      rw [h p.1 hmem]
    cases hD : dlookup lc.createDictDistComb lcn with
    | none => rfl
    | some d =>
      show Except.ok (cs.map (fun p => (dlookup kw p.1).getD (RVObj.const p.2)) ++ _) =
        Except.ok (cs.map (fun p => (dlookup kw' p.1).getD (RVObj.const p.2)) ++ _)
      rw [hconst, hvar d hD]

/-- C4 (amended): an undeclared name in a case's governing list and a
keyword override for an undeclared name are silently ignored rather than
raising: the assembled model depends on the overrides only through the
declared names, and on a governing list only through membership of the
declared combination-variable names. -/
theorem c4_unknown_names_ignored :
    (∀ (lc : LoadCombination) (lcn : Option String)
        (kw kw' : List (String × RVObj)),
        (∀ n, n ∈ lc.label_all → dlookup kw n = dlookup kw' n) →
        lc.runReliabilityModel lcn kw = lc.runReliabilityModel lcn kw') ∧
    (∀ (lc : LoadCombination) (g g' : List String),
        (∀ p ∈ lc.distributions_comb, g.contains p.1 = g'.contains p.1) →
        lc.caseDict g = lc.caseDict g') := by
  constructor
  · intro lc lcn kw kw' h
    unfold LoadCombination.runReliabilityModel
    cases lcn with
    | some c => exact runCase_kw_agree lc c kw kw' h
    | none =>
      cases lc.label_comb_cases with
      | nil => rfl
      | cons c t => exact runCase_kw_agree lc c kw kw' h
  · intro lc g g' h
    unfold LoadCombination.caseDict
    refine List.foldl_ext _ _ _ ?_
    intro d p hp
    rw [h p hp]

/-- A load combination whose only case lists the undeclared name `Bogus` as
governing. -/
def lcC4 : LoadCombination :=
  mkLoadCombination lsfW [("L", ⟨"Lmax", 0⟩, ⟨"Lpit", 1⟩)] [⟨"R", 4⟩] none
    (some [⟨"z", 3 / 2⟩]) [("c1", ["L", "Bogus"])]

/-- C4 (counterexample): the governing list of case `c1` references the
undeclared name `Bogus`, and the keyword overrides reference the undeclared
name `Ghost`, yet `run_reliability_case` assembles the model without any
"unknown variable" failure, ignoring both names. -/
theorem c4_counterexample :
    "Bogus" ∈ (dlookup lcC4.dict_comb_cases "c1").getD [] ∧
      "Bogus" ∉ lcC4.label_all ∧
      "Ghost" ∉ lcC4.label_all ∧
      lcC4.runReliabilityModel (some "c1")
          [("Ghost", RVObj.dist ⟨"Ghost", 9⟩)] =
        Except.ok [RVObj.const ⟨"z", 3 / 2⟩, RVObj.dist ⟨"R", 4⟩,
          RVObj.dist ⟨"Lmax", 0⟩] :=
  ⟨by decide, by decide, by decide, by rfl⟩

theorem c4_witness :
    lcC4.runReliabilityModel (some "c1")
        [("Ghost", RVObj.dist ⟨"Ghost", 9⟩)] =
      lcC4.runReliabilityModel (some "c1") [] ∧
      lcC4.caseDict ["L", "Bogus"] = lcC4.caseDict ["L"] :=
  ⟨c4_unknown_names_ignored.1 lcC4 (some "c1")
      [("Ghost", RVObj.dist ⟨"Ghost", 9⟩)] [] (by decide),
    c4_unknown_names_ignored.2 lcC4 ["L", "Bogus"] ["L"] (by decide)⟩

/-! ### Positional entry lemmas -/

/-- Entry `(i, j)` of a row-major matrix, when present. -/
def ent (rows : List (List ℚ)) (i j : ℕ) : Option ℚ :=
  (rows[i]?).bind (fun r => r[j]?)

theorem length_mapWithIdx {α : Type u} {β : Type v} (f : ℕ → α → β) :
    ∀ (n : ℕ) (l : List α), (mapWithIdx f n l).length = l.length
  | _, [] => rfl
  | n, _ :: xs => by simp [mapWithIdx, length_mapWithIdx f (n + 1) xs]

theorem getElem?_mapWithIdx {α : Type u} {β : Type v} (f : ℕ → α → β) :
    ∀ (n : ℕ) (l : List α) (i : ℕ),
      (mapWithIdx f n l)[i]? = (l[i]?).map (f (n + i))
  | _, [], i => by simp [mapWithIdx]
  | n, x :: xs, 0 => by simp [mapWithIdx]
  | n, x :: xs, i + 1 => by
    have := getElem?_mapWithIdx f (n + 1) xs i
    simp only [mapWithIdx, List.getElem?_cons_succ, this]
    have harith : n + 1 + i = n + (i + 1) := by omega
    rw [harith]

theorem ent_fillDiagonal (v : ℚ) (rows : List (List ℚ)) (i j : ℕ) :
    ent (fillDiagonal v rows) i j =
      (ent rows i j).map (fun x => if i = j then v else x) := by
  unfold ent fillDiagonal
  rw [getElem?_mapWithIdx]
  simp only [Nat.zero_add]
  cases hi : rows[i]? with
  | none => rfl
  | some r =>
    simp only [Option.map_some', Option.some_bind]
    rw [getElem?_mapWithIdx]
    simp

/-! ### C6 -/

/-- C6: every diagonal entry `(i, i)` of the LHS matrix produced by
`calc_epgS_mat` is exactly zero (reading an absent entry as the default 0),
for every calibration instance and every input table, before the linear
system is solved. -/
theorem c6_epgS_diag_zero (cal : Calibration) (dfgammanom : DF) (i : ℕ) :
    ((cal.calc_epgS_mat dfgammanom).toOption.bind (fun M => ent M i i)).getD 0 = 0 := by
  unfold Calibration.calc_epgS_mat
  cases hr : dfgammanom.index.mapM (cal.epgSRow dfgammanom) with
  | error e => rfl
  | ok rows =>
    show (ent (fillDiagonal 0 (rows.map (fun r => r.map (fun y => -y)))) i i).getD 0 = 0
    rw [ent_fillDiagonal]
    cases ent (rows.map (fun r => r.map (fun y => -y))) i i with
    | none => rfl
    | some y => simp

/-! ### Column maximum lemmas -/

theorem le_listMax_of_mem : ∀ {l : List ℚ} {x : ℚ}, x ∈ l → x ≤ listMax l
  | [x], _, h => by
    simp at h
    simp [listMax, h]
  | x :: y :: t, z, h => by
    rcases List.mem_cons.mp h with h1 | h1
    · rw [h1]
      exact le_max_left _ _
    · exact le_trans (le_listMax_of_mem h1) (le_max_right x (listMax (y :: t)))

theorem listMax_mem : ∀ {l : List ℚ}, l ≠ [] → listMax l ∈ l
  | [], h => absurd rfl h
  | [x], _ => by simp [listMax]
  | x :: y :: t, _ => by
    rcases le_total x (listMax (y :: t)) with h | h
    · rw [show listMax (x :: y :: t) = max x (listMax (y :: t)) from rfl, max_eq_right h]
      exact List.mem_cons_of_mem _ (listMax_mem (by simp))
    · rw [show listMax (x :: y :: t) = max x (listMax (y :: t)) from rfl, max_eq_left h]
      simp

theorem ent_mem_colEntries :
    ∀ (rows : List (List ℚ)) (i j : ℕ) (x : ℚ),
      ent rows i j = some x → x ∈ colEntries j rows
  | [], i, _, _, h => by simp [ent] at h
  | r :: rs, 0, j, x, h => by
    have hx : r[j]? = some x := by simpa [ent] using h
    simp [colEntries, hx]
  | r :: rs, i + 1, j, x, h => by
    have hx : ent rs i j = some x := by simpa [ent] using h
    have := ent_mem_colEntries rs i j x hx
    unfold colEntries
    cases hr : r[j]? with
    | none => exact this
    | some y => exact List.mem_cons_of_mem _ this

theorem mem_colEntries_ent :
    ∀ (rows : List (List ℚ)) (j : ℕ) (x : ℚ),
      x ∈ colEntries j rows → ∃ i, ent rows i j = some x
  | [], _, _, h => by simp [colEntries] at h
  | r :: rs, j, x, h => by
    unfold colEntries at h
    cases hr : r[j]? with
    | none =>
      rw [hr] at h
      rcases mem_colEntries_ent rs j x h with ⟨i, hi⟩
      exact ⟨i + 1, by simpa [ent] using hi⟩
    | some y =>
      rw [hr] at h
      rcases List.mem_cons.mp h with h1 | h1
      · exact ⟨0, by simp [ent, hr, h1]⟩
      · rcases mem_colEntries_ent rs j x h1 with ⟨i, hi⟩
        exact ⟨i + 1, by simpa [ent] using hi⟩

theorem ent_le_colMax {rows : List (List ℚ)} {i j : ℕ} {x : ℚ}
    (h : ent rows i j = some x) : x ≤ colMax rows j :=
  le_listMax_of_mem (ent_mem_colEntries rows i j x h)

theorem colMax_attained {rows : List (List ℚ)} {i j : ℕ} {x : ℚ}
    (h : ent rows i j = some x) :
    ∃ k, ent rows k j = some (colMax rows j) := by
  have hne : colEntries j rows ≠ [] :=
    List.ne_nil_of_mem (ent_mem_colEntries rows i j x h)
  exact mem_colEntries_ent rows j _ (listMax_mem hne)

theorem colMax_le_of_bound {rows : List (List ℚ)} {i j : ℕ} {x c : ℚ}
    (hb : ∀ k y, ent rows k j = some y → y ≤ c)
    (h : ent rows i j = some x) : colMax rows j ≤ c := by
  rcases colMax_attained h with ⟨k, hk⟩
  exact hb k _ hk

theorem ent_clip (rows : List (List ℚ)) (i j : ℕ) :
    ent (clipLowerColMax rows) i j =
      (ent rows i j).map (fun x => max x (colMax rows j)) := by
  unfold ent clipLowerColMax
  rw [List.getElem?_map]
  cases hi : rows[i]? with
  | none => rfl
  | some r =>
    simp only [Option.map_some', Option.some_bind]
    rw [getElem?_mapWithIdx]
    simp

theorem isSome_getElem?_fillDiagonal (v : ℚ) (rows : List (List ℚ)) (i : ℕ) :
    ((fillDiagonal v rows)[i]?).isSome = (rows[i]?).isSome := by
  unfold fillDiagonal
  rw [getElem?_mapWithIdx]
  cases rows[i]? <;> rfl

theorem isSome_getElem?_clip (rows : List (List ℚ)) (i : ℕ) :
    ((clipLowerColMax rows)[i]?).isSome = (rows[i]?).isSome := by
  unfold clipLowerColMax
  rw [List.getElem?_map]
  cases rows[i]? <;> rfl

theorem listlist_ext (a : List (List ℚ)) :
    ∀ (b : List (List ℚ)),
      (∀ i : ℕ, (a[i]?).isSome = (b[i]?).isSome) →
      (∀ i j : ℕ, ent a i j = ent b i j) → a = b := by
  induction a with
  | nil =>
    intro b hs _
    cases b with
    | nil => rfl
    | cons s u => simpa using hs 0
  | cons r t ih =>
    intro b hs he
    cases b with
    | nil => simpa using hs 0
    | cons s u =>
      have hhead : r = s := by
        apply List.ext_getElem?
        intro j
        simpa [ent] using he 0 j
      have htail : t = u :=
        ih u (fun i => by simpa using hs (i + 1))
          (fun i j => by simpa [ent] using he (i + 1) j)
      rw [hhead, htail]

theorem clip_clip (A : List (List ℚ)) :
    clipLowerColMax (clipLowerColMax A) = clipLowerColMax A := by
  apply listlist_ext
  · intro i
    rw [isSome_getElem?_clip]
  · intro i j
    rw [ent_clip, ent_clip]
    cases hx : ent A i j with
    | none => simp
    | some x =>
      have hxm : x ≤ colMax A j := ent_le_colMax hx
      have hb : ∀ k y, ent (clipLowerColMax A) k j = some y → y ≤ colMax A j := by
        intro k y hy
        rw [ent_clip] at hy
        cases hz : ent A k j with
        | none => rw [hz] at hy; simp at hy
        | some z =>
          rw [hz] at hy
          have : y = max z (colMax A j) := by simpa using hy.symm
          rw [this, max_eq_right (ent_le_colMax hz)]
      have hent : ent (clipLowerColMax A) i j = some (colMax A j) := by
        rw [ent_clip, hx]
        simp [max_eq_right hxm]
      have h1 : colMax (clipLowerColMax A) j ≤ colMax A j :=
        colMax_le_of_bound hb hent
      have h2 : colMax A j ≤ colMax (clipLowerColMax A) j := ent_le_colMax hent
      simp [max_eq_right hxm, max_eq_left h1, le_antisymm h1 h2]

theorem clip_zero_diag_idem (A : List (List ℚ)) :
    clipLowerColMax (fillDiagonal 0 (clipLowerColMax (fillDiagonal 0 A))) =
      clipLowerColMax (fillDiagonal 0 A) := by
  apply listlist_ext
  · intro i
    rw [isSome_getElem?_clip, isSome_getElem?_fillDiagonal, isSome_getElem?_clip]
  · intro i j
    set Z := fillDiagonal 0 A with hZ
    set Z2 := fillDiagonal 0 (clipLowerColMax Z) with hZ2
    rw [ent_clip, ent_fillDiagonal, ent_clip]
    cases hx : ent Z i j with
    | none => simp
    | some x =>
      simp only [Option.map_some']
      have hxm : x ≤ colMax Z j := ent_le_colMax hx
      rw [max_eq_right hxm]
      have hdiagZ : ∀ k y, k = j → ent Z k j = some y → y = 0 := by
        intro k y hkj hy
        subst hkj
        rw [hZ, ent_fillDiagonal] at hy
        cases ha : ent A k k with
        | none => rw [ha] at hy; simp at hy
        | some z => rw [ha] at hy; simpa using hy.symm
      have hbound : ∀ k y, ent Z2 k j = some y → y ≤ colMax Z j := by
        intro k y hy
        rw [hZ2, ent_fillDiagonal] at hy
        cases hc : ent (clipLowerColMax Z) k j with
        | none => rw [hc] at hy; simp at hy
        | some z =>
          rw [hc] at hy
          have hyz : y = if k = j then 0 else z := by simpa using hy.symm
          rw [ent_clip] at hc
          cases hzk : ent Z k j with
          | none => rw [hzk] at hc; simp at hc
          | some w =>
            rw [hzk] at hc
            have hzw : z = max w (colMax Z j) := by simpa using hc.symm
            by_cases hkj : k = j
            · have hw0 : w = 0 := hdiagZ k w hkj hzk
              have h0m : (0 : ℚ) ≤ colMax Z j := hw0 ▸ ent_le_colMax hzk
              rw [hyz, if_pos hkj]
              exact h0m
            · rw [hyz, if_neg hkj, hzw, max_eq_right (ent_le_colMax hzk)]
      have hentZ2 : ent Z2 i j = some (if i = j then 0 else colMax Z j) := by
        rw [hZ2, ent_fillDiagonal, ent_clip, hx]
        simp [max_eq_right hxm]
      have hm2le : colMax Z2 j ≤ colMax Z j := colMax_le_of_bound hbound hentZ2
      by_cases hij : i = j
      · rw [if_pos hij]
        have h0 : ent Z2 i j = some 0 := by
          rw [hentZ2, if_pos hij]
        have hm20 : (0 : ℚ) ≤ colMax Z2 j := ent_le_colMax h0
        rw [max_eq_right hm20]
        have hx0 : x = 0 := hdiagZ i x hij hx
        rcases colMax_attained hx with ⟨k, hk⟩
        by_cases hki : k = j
        · have hm0 : colMax Z j = 0 := hdiagZ k _ hki hk
          rw [hm0]
          exact congrArg some (le_antisymm (hm0 ▸ hm2le) hm20)
        · have hk2 : ent Z2 k j = some (colMax Z j) := by
            rw [hZ2, ent_fillDiagonal, ent_clip, hk]
            simp [if_neg hki]
          have hge : colMax Z j ≤ colMax Z2 j := ent_le_colMax hk2
          exact congrArg some (le_antisymm hm2le hge)
      · rw [if_neg hij, max_eq_left hm2le]

/-! ### C7 -/

/-- C7: the clip-to-maximum post-processing is idempotent: for every factor
table, applying `get_psi_max` twice yields the same table as applying it
once, and likewise for `get_phi_max`. -/
theorem c7_set_max_idempotent (d : DF) :
    get_psi_max (get_psi_max d) = get_psi_max d ∧
      get_phi_max (get_phi_max d) = get_phi_max d := by
  constructor
  · show DF.mk d.index d.cols
        (clipLowerColMax (fillDiagonal 0 (clipLowerColMax (fillDiagonal 0 d.data)))) =
      DF.mk d.index d.cols (clipLowerColMax (fillDiagonal 0 d.data))
    rw [clip_zero_diag_idem]
  · show DF.mk d.index d.cols (clipLowerColMax (clipLowerColMax d.data)) =
      DF.mk d.index d.cols (clipLowerColMax d.data)
    rw [clip_clip]

/-! ### C8: print-output independence -/

/-- Two calibration instances that agree on everything except the
`print_output` flag. -/
def sameButPO (c1 c2 : Calibration) : Prop :=
  c1.lc = c2.lc ∧ c1.beta_t = c2.beta_t ∧ c1.calib_method = c2.calib_method ∧
    c1.est_method = c2.est_method ∧ c1.df_nom = c2.df_nom ∧
    c1.cvar = c2.cvar ∧ c1.startz = c2.startz ∧ c1.rel = c2.rel ∧
    c1.fsolve = c2.fsolve ∧ c1.linsolve = c2.linsolve

theorem sameButPO_calc_design_param {c1 c2 : Calibration} (h : sameButPO c1 c2)
    (row : String → ℚ) :
    c1.calc_design_param_Xst row = c2.calc_design_param_Xst row := by
  unfold Calibration.calc_design_param_Xst Calibration.label_other
    Calibration.label_comb_vrs Calibration.label_R
  rw [h.1]

theorem sameButPO_optimize {c1 c2 : Calibration} (h : sameButPO c1 c2)
    (lcn : Option String) (z0 tb : ℚ) (po1 po2 : Bool) (xtol : ℚ)
    (mi : Option ℕ) :
    c1.calibration_optimize lcn z0 tb po1 xtol mi =
      c2.calibration_optimize lcn z0 tb po2 xtol mi := by
  unfold Calibration.calibration_optimize
  rw [h.2.2.2.2.2.2.2.1, h.2.2.2.2.2.2.2.2.1]

/-- The components of the alpha-iteration state other than the printed
output. -/
def AlphaState.core (st : AlphaState) : ℚ × FormRes × ℚ × List ℚ × ℕ :=
  (st.z_cal, st.form_cal, st.beta_cal, st.alpha_cal, st.n_iter)

theorem sameButPO_alphaBody {c1 c2 : Calibration} (h : sameButPO c1 c2)
    (lcn : Option String) (po1 po2 : Bool) (columns : List String)
    (st1 st2 : AlphaState) (hst : st1.core = st2.core) :
    (c1.alphaBody lcn po1 columns st1).map AlphaState.core =
      (c2.alphaBody lcn po2 columns st2).map AlphaState.core := by
  have hf : st1.form_cal = st2.form_cal :=
    congrArg (fun c => c.2.1) hst
  have hα : st1.alpha_cal = st2.alpha_cal :=
    congrArg (fun c => c.2.2.2.1) hst
  have hn : st1.n_iter = st2.n_iter :=
    congrArg (fun c => c.2.2.2.2) hst
  unfold Calibration.alphaBody
  rw [hf, hα, hn, h.2.1, h.2.2.2.2.2.2.2.1,
    sameButPO_calc_design_param h]
  cases hz : c2.calc_design_param_Xst
      (fun c =>
        (st2.form_cal.uToX (st2.alpha_cal.map (fun a => a * c2.beta_t))).getD
          (columns.indexOf c) 0) with
  | error e => rfl
  | ok z => rfl

theorem sameButPO_alphaLoop {c1 c2 : Calibration} (h : sameButPO c1 c2)
    (lcn : Option String) (po1 po2 : Bool) (abstol : ℚ) (mi : ℕ)
    (columns : List String) :
    ∀ (fuel : ℕ) (st1 st2 : AlphaState), st1.core = st2.core →
      (c1.alphaLoop lcn po1 abstol mi columns fuel st1).map (fun r => r.1) =
        (c2.alphaLoop lcn po2 abstol mi columns fuel st2).map (fun r => r.1) := by
  intro fuel
  induction fuel with
  | zero =>
    intro st1 st2 hst
    have hz : st1.z_cal = st2.z_cal := congrArg (fun c => c.1) hst
    have hf : st1.form_cal = st2.form_cal := congrArg (fun c => c.2.1) hst
    have hβ : st1.beta_cal = st2.beta_cal := congrArg (fun c => c.2.2.1) hst
    unfold Calibration.alphaLoop
    rw [hz, hf, hβ, h.2.1]
    by_cases hc : npIsClose st2.beta_cal c2.beta_t abstol
    · simp [hc, Except.map]
    · simp [hc, Except.map]
  | succ fuel ih =>
    intro st1 st2 hst
    have hz : st1.z_cal = st2.z_cal := congrArg (fun c => c.1) hst
    have hf : st1.form_cal = st2.form_cal := congrArg (fun c => c.2.1) hst
    have hβ : st1.beta_cal = st2.beta_cal := congrArg (fun c => c.2.2.1) hst
    have hb := sameButPO_alphaBody h lcn po1 po2 columns st1 st2 hst
    unfold Calibration.alphaLoop
    rw [hz, hf, hβ, h.2.1]
    by_cases hc : npIsClose st2.beta_cal c2.beta_t abstol
    · simp [hc, Except.map]
    · simp only [hc, if_false]
      cases hb1 : c1.alphaBody lcn po1 columns st1 with
      | error e1 =>
        cases hb2 : c2.alphaBody lcn po2 columns st2 with
        | error e2 =>
          rw [hb1, hb2] at hb
          have he : e1 = e2 := by simpa [Except.map] using hb
          rw [he]
          rfl
        | ok st2' =>
          rw [hb1, hb2] at hb
          simp [Except.map] at hb
      | ok st1' =>
        cases hb2 : c2.alphaBody lcn po2 columns st2 with
        | error e2 =>
          rw [hb1, hb2] at hb
          simp [Except.map] at hb
        | ok st2' =>
          rw [hb1, hb2] at hb
          have hcore : st1'.core = st2'.core := by
            simpa [Except.map] using hb
          have hn' : st1'.n_iter = st2'.n_iter :=
            congrArg (fun c => c.2.2.2.2) hcore
          have hz' : st1'.z_cal = st2'.z_cal := congrArg (fun c => c.1) hcore
          have hf' : st1'.form_cal = st2'.form_cal :=
            congrArg (fun c => c.2.1) hcore
          show (Except.ok st1' >>= fun st' =>
              if st'.n_iter = mi then
                Except.ok ((st'.z_cal, st'.form_cal), st'.log ++ [alphaAbortMsg mi])
              else c1.alphaLoop lcn po1 abstol mi columns fuel st').map (fun r => r.1) =
            (Except.ok st2' >>= fun st' =>
              if st'.n_iter = mi then
                Except.ok ((st'.z_cal, st'.form_cal), st'.log ++ [alphaAbortMsg mi])
              else c2.alphaLoop lcn po2 abstol mi columns fuel st').map (fun r => r.1)
          show (if st1'.n_iter = mi then
                Except.ok ((st1'.z_cal, st1'.form_cal), st1'.log ++ [alphaAbortMsg mi])
              else c1.alphaLoop lcn po1 abstol mi columns fuel st1').map (fun r => r.1) =
            (if st2'.n_iter = mi then
                Except.ok ((st2'.z_cal, st2'.form_cal), st2'.log ++ [alphaAbortMsg mi])
              else c2.alphaLoop lcn po2 abstol mi columns fuel st2').map (fun r => r.1)
          rw [hn']
          by_cases hcap : st2'.n_iter = mi
          · simp [hcap, hz', hf', Except.map]
          · simp only [hcap, if_false]
            exact ih st1' st2' hcore

theorem sameButPO_alpha {c1 c2 : Calibration} (h : sameButPO c1 c2)
    (lcn : Option String) (z0 tb : ℚ) (po1 po2 : Bool) (abstol : ℚ) (mi : ℕ) :
    (c1.calibration_alpha lcn z0 tb po1 abstol mi).map (fun r => r.1) =
      (c2.calibration_alpha lcn z0 tb po2 abstol mi).map (fun r => r.1) := by
  unfold Calibration.calibration_alpha
  rw [h.2.2.2.2.2.2.2.1]
  exact sameButPO_alphaLoop h lcn po1 po2 abstol mi
    (getDfXstarLabels (c2.rel lcn z0)) mi
    { z_cal := z0, form_cal := c2.rel lcn z0, beta_cal := (c2.rel lcn z0).beta,
      alpha_cal := (c2.rel lcn z0).alpha, n_iter := 0,
      log := if po1 then [alphaIterMsg 0] else [] }
    { z_cal := z0, form_cal := c2.rel lcn z0, beta_cal := (c2.rel lcn z0).beta,
      alpha_cal := (c2.rel lcn z0).alpha, n_iter := 0,
      log := if po2 then [alphaIterMsg 0] else [] }
    rfl

/-- The calibrated design parameters and FORM objects, without the printed
output. -/
def zfPart (r : List ℚ × List FormRes × List String) : List ℚ × List FormRes :=
  (r.1, r.2.1)

theorem sameButPO_calibStep {c1 c2 : Calibration} (h : sameButPO c1 c2)
    (startz : ℚ) (acc1 acc2 : List ℚ × List FormRes × List String)
    (lcn : String) (h1 : acc1.1 = acc2.1) (h2 : acc1.2.1 = acc2.2.1) :
    (c1.calibStep startz acc1 lcn).map zfPart =
      (c2.calibStep startz acc2 lcn).map zfPart := by
  unfold Calibration.calibStep
  rw [h.2.2.1, h.2.1,
    sameButPO_optimize h (some lcn) startz c2.beta_t c1.print_output
      c2.print_output (1 / 10000) none]
  by_cases hopt : c2.calib_method = "optimize"
  · simp only [hopt, if_pos, if_true]
    simp [Except.map, zfPart, h1, h2]
  · simp only [hopt, if_false]
    by_cases halp : c2.calib_method = "alpha"
    · simp only [halp, if_pos, if_true]
      have ha := sameButPO_alpha h (some lcn) startz c2.beta_t c1.print_output
        c2.print_output (1 / 10000) 100
      cases ha1 : c1.calibration_alpha (some lcn) startz c2.beta_t
          c1.print_output (1 / 10000) 100 with
      | error e1 =>
        cases ha2 : c2.calibration_alpha (some lcn) startz c2.beta_t
            c2.print_output (1 / 10000) 100 with
        | error e2 =>
          rw [ha1, ha2] at ha
          have : e1 = e2 := by simpa [Except.map] using ha
          rw [this]
          rfl
        | ok r2 =>
          rw [ha1, ha2] at ha
          simp [Except.map] at ha
      | ok r1 =>
        cases ha2 : c2.calibration_alpha (some lcn) startz c2.beta_t
            c2.print_output (1 / 10000) 100 with
        | error e2 =>
          rw [ha1, ha2] at ha
          simp [Except.map] at ha
        | ok r2 =>
          rw [ha1, ha2] at ha
          have hr : r1.1 = r2.1 := by simpa [Except.map] using ha
          simp [Except.map, zfPart, h1, h2, hr]
    · simp [halp]

theorem sameButPO_calibFold {c1 c2 : Calibration} (h : sameButPO c1 c2)
    (startz : ℚ) (lcs : List String) :
    ∀ (acc1 acc2 : List ℚ × List FormRes × List String),
      acc1.1 = acc2.1 → acc1.2.1 = acc2.2.1 →
      (lcs.foldlM (c1.calibStep startz) acc1).map zfPart =
        (lcs.foldlM (c2.calibStep startz) acc2).map zfPart := by
  induction lcs with
  | nil =>
    intro acc1 acc2 h1 h2
    rw [List.foldlM_nil, List.foldlM_nil]
    show Except.ok (zfPart acc1) = Except.ok (zfPart acc2)
    rw [show zfPart acc1 = zfPart acc2 from Prod.ext h1 h2]
  | cons lcn lcs ih =>
    intro acc1 acc2 h1 h2
    rw [List.foldlM_cons, List.foldlM_cons]
    have hs := sameButPO_calibStep h startz acc1 acc2 lcn h1 h2
    cases hs1 : c1.calibStep startz acc1 lcn with
    | error e1 =>
      cases hs2 : c2.calibStep startz acc2 lcn with
      | error e2 =>
        rw [hs1, hs2] at hs
        have he : e1 = e2 := by simpa [Except.map] using hs
        rw [he]
        show (Except.error e2 : Except PyErr (List ℚ × List FormRes)) =
          Except.error e2
        rfl
      | ok a2 =>
        rw [hs1, hs2] at hs
        simp [Except.map] at hs
    | ok a1 =>
      cases hs2 : c2.calibStep startz acc2 lcn with
      | error e2 =>
        rw [hs1, hs2] at hs
        simp [Except.map] at hs
      | ok a2 =>
        rw [hs1, hs2] at hs
        have ha : zfPart a1 = zfPart a2 := by simpa [Except.map] using hs
        have ha1 : a1.1 = a2.1 := congrArg (fun p => p.1) ha
        have ha2 : a1.2.1 = a2.2.1 := congrArg (fun p => p.2) ha
        exact ih a1 a2 ha1 ha2

theorem sameButPO_startzResolved {c1 c2 : Calibration} (h : sameButPO c1 c2) :
    c1.startzResolved = c2.startzResolved := by
  unfold Calibration.startzResolved
  rw [h.1, h.2.2.2.2.2.1, h.2.2.2.2.2.2.1]

theorem sameButPO_calibrate {c1 c2 : Calibration} (h : sameButPO c1 c2) :
    (c1.calibrate_design_param).map (fun r => r.1) =
      (c2.calibrate_design_param).map (fun r => r.1) := by
  unfold Calibration.calibrate_design_param
  rw [sameButPO_startzResolved h, h.1]
  cases hsz : c2.startzResolved with
  | error e =>
    show (Except.error e : Except PyErr (List ℚ × List FormRes)) = Except.error e
    rfl
  | ok startz =>
    have hf := sameButPO_calibFold h startz c2.lc.label_comb_cases
      ([], [], []) ([], [], []) rfl rfl
    show (c2.lc.label_comb_cases.foldlM (c1.calibStep startz) ([], [], []) >>=
        fun res => Except.ok ((res.1, res.2.1), res.2.2 ++
          (if c1.print_output then ["Calibrated reliabilities"] else []))).map
        (fun r => r.1) =
      (c2.lc.label_comb_cases.foldlM (c2.calibStep startz) ([], [], []) >>=
        fun res => Except.ok ((res.1, res.2.1), res.2.2 ++
          (if c2.print_output then ["Calibrated reliabilities"] else []))).map
        (fun r => r.1)
    cases hf1 : c2.lc.label_comb_cases.foldlM (c1.calibStep startz) ([], [], []) with
    | error e1 =>
      cases hf2 : c2.lc.label_comb_cases.foldlM (c2.calibStep startz) ([], [], []) with
      | error e2 =>
        rw [hf1, hf2] at hf
        have he : e1 = e2 := by simpa [Except.map] using hf
        rw [he]
        show (Except.error e2 : Except PyErr (List ℚ × List FormRes)) = Except.error e2
        rfl
      | ok r2 =>
        rw [hf1, hf2] at hf
        simp [Except.map] at hf
    | ok r1 =>
      cases hf2 : c2.lc.label_comb_cases.foldlM (c2.calibStep startz) ([], [], []) with
      | error e2 =>
        rw [hf1, hf2] at hf
        simp [Except.map] at hf
      | ok r2 =>
        rw [hf1, hf2] at hf
        have hr : zfPart r1 = zfPart r2 := by simpa [Except.map] using hf
        have h1' : r1.1 = r2.1 := congrArg (fun p => p.1) hr
        have h2' : r1.2.1 = r2.2.1 := congrArg (fun p => p.2) hr
        show (Except.ok (r1.1, r1.2.1) : Except PyErr (List ℚ × List FormRes)) =
          Except.ok (r2.1, r2.2.1)
        rw [h1', h2']

/-- The value attributes written by `_run_calibration`, excluding the log. -/
def rcVals (r : RunCalibResult) : DF × List ℚ × List FormRes :=
  (r.dfXstarcal, r.list_z, r.list_form)

theorem sameButPO_run_calibration {c1 c2 : Calibration} (h : sameButPO c1 c2) :
    (c1.run_calibration).map rcVals = (c2.run_calibration).map rcVals := by
  unfold Calibration.run_calibration
  rw [h.1]
  have hc := sameButPO_calibrate h
  cases hr1 : c1.calibrate_design_param with
  | error e1 =>
    cases hr2 : c2.calibrate_design_param with
    | error e2 =>
      rw [hr1, hr2] at hc
      have he : e1 = e2 := by simpa [Except.map] using hc
      rw [he]
    | ok r2 =>
      rw [hr1, hr2] at hc
      simp [Except.map] at hc
  | ok r1 =>
    cases hr2 : c2.calibrate_design_param with
    | error e2 =>
      rw [hr1, hr2] at hc
      simp [Except.map] at hc
    | ok r2 =>
      rw [hr1, hr2] at hc
      have hr : r1.1 = r2.1 := by simpa [Except.map] using hc
      have hz : r1.1.1 = r2.1.1 := congrArg (fun p => p.1) hr
      have hfm : r1.1.2 = r2.1.2 := congrArg (fun p => p.2) hr
      show (getDfXstar r1.1.2 c2.lc.label_comb_cases >>= fun dfX =>
          Except.ok ({ dfXstarcal := dfX.setCol "z" r1.1.1,
                       list_z := r1.1.1,
                       list_form := r1.1.2,
                       log := r1.2 } : RunCalibResult)).map rcVals =
        (getDfXstar r2.1.2 c2.lc.label_comb_cases >>= fun dfX =>
          Except.ok ({ dfXstarcal := dfX.setCol "z" r2.1.1,
                       list_z := r2.1.1,
                       list_form := r2.1.2,
                       log := r2.2 } : RunCalibResult)).map rcVals
      rw [hz, hfm]
      cases hdf : getDfXstar r2.1.2 c2.lc.label_comb_cases with
      | error e =>
        show (Except.error e : Except PyErr (DF × List ℚ × List FormRes)) =
          Except.error e
        rfl
      | ok dfX =>
        show (Except.ok (dfX.setCol "z" r2.1.1, r2.1.1, r2.1.2) :
            Except PyErr (DF × List ℚ × List FormRes)) =
          Except.ok (dfX.setCol "z" r2.1.1, r2.1.1, r2.1.2)
        rfl

theorem sameButPO_pg_coeff {c1 c2 : Calibration} (h : sameButPO c1 c2)
    (d : DF) (po : Bool) : c1.calc_pg_coeff d po = c2.calc_pg_coeff d po := by
  unfold Calibration.calc_pg_coeff Calibration.calc_Xst_nom Calibration.calc_phi
    Calibration.calc_gamma Calibration.label_S Calibration.label_R
    Calibration.label_other Calibration.label_comb_vrs
  rw [h.1, h.2.2.2.2.1]

theorem sameButPO_phiRz {c1 c2 : Calibration} (h : sameButPO c1 c2) (d : DF) :
    c1.calc_phiRz_egS_vect d = c2.calc_phiRz_egS_vect d := by
  unfold Calibration.calc_phiRz_egS_vect Calibration.label_R
    Calibration.label_other Calibration.label_comb_vrs
  rw [h.1, h.2.2.2.2.2.1]

theorem sameButPO_epgSRow {c1 c2 : Calibration} (h : sameButPO c1 c2)
    (d : DF) (comb : String) : c1.epgSRow d comb = c2.epgSRow d comb := by
  unfold Calibration.epgSRow Calibration.label_S Calibration.label_other
    Calibration.label_comb_vrs
  rw [h.1]

theorem sameButPO_epgS {c1 c2 : Calibration} (h : sameButPO c1 c2) (d : DF) :
    c1.calc_epgS_mat d = c2.calc_epgS_mat d := by
  unfold Calibration.calc_epgS_mat
  rw [show c1.epgSRow d = c2.epgSRow d from
    funext (fun comb => sameButPO_epgSRow h d comb)]

theorem sameButPO_pgTables {c1 c2 : Calibration} (h : sameButPO c1 c2)
    (d : DF) : c1.pgMatrixTables d = c2.pgMatrixTables d := by
  unfold Calibration.pgMatrixTables
  rw [show Calibration.calc_Xst_nom c1 = Calibration.calc_Xst_nom c2 from
      funext (fun x => by
        unfold Calibration.calc_Xst_nom
        rw [h.1, h.2.2.2.2.1]),
    show Calibration.calc_phi c1 = Calibration.calc_phi c2 from
      funext (fun x => by
        unfold Calibration.calc_phi Calibration.label_R
        rw [h.1]),
    show Calibration.calc_gamma c1 = Calibration.calc_gamma c2 from
      funext (fun x => by
        unfold Calibration.calc_gamma Calibration.label_other
          Calibration.label_comb_vrs
        rw [h.1]),
    sameButPO_phiRz h d,
    show Calibration.calc_epgS_mat c1 = Calibration.calc_epgS_mat c2 from
      funext (fun x => sameButPO_epgS h x),
    h.2.2.2.2.1, h.2.2.2.2.2.2.2.2.2,
    show Calibration.label_other c1 = Calibration.label_other c2 from by
      unfold Calibration.label_other
      rw [h.1]]

theorem sameButPO_pg_matrix {c1 c2 : Calibration} (h : sameButPO c1 c2)
    (d : DF) (po1 po2 : Bool) :
    (c1.calc_pg_matrix d po1).map (fun r => r.1) =
      (c2.calc_pg_matrix d po2).map (fun r => r.1) := by
  unfold Calibration.calc_pg_matrix
  rw [sameButPO_pgTables h d]
  cases ht : c2.pgMatrixTables d with
  | error e =>
    show (Except.error e : Except PyErr (DF × DF × DF)) = Except.error e
    rfl
  | ok t =>
    show (Except.ok t : Except PyErr (DF × DF × DF)) = Except.ok t
    rfl

theorem sameButPO_est_coeff {c1 c2 : Calibration} (h : sameButPO c1 c2)
    (sm : Bool) (d : DF) :
    (c1.estimate_factors_coeff sm d).1 = (c2.estimate_factors_coeff sm d).1 := by
  have hc := sameButPO_pg_coeff h d c1.print_output
  show (if sm then get_phi_max (c1.calc_pg_coeff d c1.print_output).1.1
        else (c1.calc_pg_coeff d c1.print_output).1.1,
      (c1.calc_pg_coeff d c1.print_output).1.2.1,
      if sm then get_psi_max (c1.calc_pg_coeff d c1.print_output).1.2.2
        else (c1.calc_pg_coeff d c1.print_output).1.2.2) =
    (if sm then get_phi_max (c2.calc_pg_coeff d c2.print_output).1.1
        else (c2.calc_pg_coeff d c2.print_output).1.1,
      (c2.calc_pg_coeff d c2.print_output).1.2.1,
      if sm then get_psi_max (c2.calc_pg_coeff d c2.print_output).1.2.2
        else (c2.calc_pg_coeff d c2.print_output).1.2.2)
  rw [hc]
  have hp : (c2.calc_pg_coeff d c1.print_output).1 =
      (c2.calc_pg_coeff d c2.print_output).1 := rfl
  rw [hp]

theorem sameButPO_est_matrix {c1 c2 : Calibration} (h : sameButPO c1 c2)
    (sm : Bool) (d : DF) :
    (c1.estimate_factors_matrix sm d).map (fun r => r.1) =
      (c2.estimate_factors_matrix sm d).map (fun r => r.1) := by
  have hm := sameButPO_pg_matrix h d c1.print_output c2.print_output
  unfold Calibration.estimate_factors_matrix
  cases h1 : c1.calc_pg_matrix d c1.print_output with
  | error e1 =>
    cases h2 : c2.calc_pg_matrix d c2.print_output with
    | error e2 =>
      rw [h1, h2] at hm
      have he : e1 = e2 := by simpa [Except.map] using hm
      rw [he]
    | ok r2 =>
      rw [h1, h2] at hm
      simp [Except.map] at hm
  | ok r1 =>
    cases h2 : c2.calc_pg_matrix d c2.print_output with
    | error e2 =>
      rw [h1, h2] at hm
      simp [Except.map] at hm
    | ok r2 =>
      rw [h1, h2] at hm
      have hr : r1.1 = r2.1 := by simpa [Except.map] using hm
      show (Except.ok (if sm then get_phi_max r1.1.1 else r1.1.1,
          r1.1.2.1, r1.1.2.2) : Except PyErr (DF × DF × DF)) =
        Except.ok (if sm then get_phi_max r2.1.1 else r2.1.1,
          r2.1.2.1, r2.1.2.2)
      rw [hr]

/-- The value attributes left on the object by `run`, excluding the log. -/
def runVals (r : RunResult) : DF × Option DF × Option DF × Option DF :=
  (r.dfXstarcal, r.df_phi, r.df_gamma, r.df_psi)

theorem sameButPO_runDispatch {c1 c2 : Calibration} (h : sameButPO c1 c2)
    (em : String) (sm : Bool) {rc1 rc2 : RunCalibResult}
    (hv : rcVals rc1 = rcVals rc2) :
    (c1.runDispatch em sm rc1).map runVals =
      (c2.runDispatch em sm rc2).map runVals := by
  have hdfX : rc1.dfXstarcal = rc2.dfXstarcal := congrArg (fun p => p.1) hv
  unfold Calibration.runDispatch
  by_cases hco : em = "coeff"
  · rw [if_pos hco, if_pos hco]
    show (Except.ok (rc1.dfXstarcal,
        some (c1.estimate_factors_coeff sm rc1.dfXstarcal).1.1,
        some (c1.estimate_factors_coeff sm rc1.dfXstarcal).1.2.1,
        some (c1.estimate_factors_coeff sm rc1.dfXstarcal).1.2.2) :
        Except PyErr (DF × Option DF × Option DF × Option DF)) =
      Except.ok (rc2.dfXstarcal,
        some (c2.estimate_factors_coeff sm rc2.dfXstarcal).1.1,
        some (c2.estimate_factors_coeff sm rc2.dfXstarcal).1.2.1,
        some (c2.estimate_factors_coeff sm rc2.dfXstarcal).1.2.2)
    rw [hdfX, sameButPO_est_coeff h sm rc2.dfXstarcal]
  · rw [if_neg hco, if_neg hco]
    by_cases hma : em = "matrix"
    · rw [if_pos hma, if_pos hma]
      rw [hdfX]
      have hm := sameButPO_est_matrix h sm rc2.dfXstarcal
      cases h1 : c1.estimate_factors_matrix sm rc2.dfXstarcal with
      | error e1 =>
        cases h2 : c2.estimate_factors_matrix sm rc2.dfXstarcal with
        | error e2 =>
          rw [h1, h2] at hm
          have he : e1 = e2 := by simpa [Except.map] using hm
          rw [he]
          show (Except.error e2 :
              Except PyErr (DF × Option DF × Option DF × Option DF)) =
            Except.error e2
          rfl
        | ok r2 =>
          rw [h1, h2] at hm
          simp [Except.map] at hm
      | ok r1 =>
        cases h2 : c2.estimate_factors_matrix sm rc2.dfXstarcal with
        | error e2 =>
          rw [h1, h2] at hm
          simp [Except.map] at hm
        | ok r2 =>
          rw [h1, h2] at hm
          have hr : r1.1 = r2.1 := by simpa [Except.map] using hm
          show (Except.ok (rc2.dfXstarcal, some r1.1.1, some r1.1.2.1,
              some r1.1.2.2) :
              Except PyErr (DF × Option DF × Option DF × Option DF)) =
            Except.ok (rc2.dfXstarcal, some r2.1.1, some r2.1.2.1,
              some r2.1.2.2)
          rw [hr]
    · rw [if_neg hma, if_neg hma]
      show (Except.ok (rc1.dfXstarcal, none, none, none) :
          Except PyErr (DF × Option DF × Option DF × Option DF)) =
        Except.ok (rc2.dfXstarcal, none, none, none)
      rw [hdfX]

theorem sameButPO_run {c1 c2 : Calibration} (h : sameButPO c1 c2)
    (em : Option String) (sm : Bool) :
    (c1.run em sm).map runVals = (c2.run em sm).map runVals := by
  unfold Calibration.run
  rw [h.2.2.2.1]
  have hrc := sameButPO_run_calibration h
  cases hr1 : c1.run_calibration with
  | error e1 =>
    cases hr2 : c2.run_calibration with
    | error e2 =>
      rw [hr1, hr2] at hrc
      have he : e1 = e2 := by simpa [Except.map] using hrc
      rw [he]
      show (Except.error e2 :
          Except PyErr (DF × Option DF × Option DF × Option DF)) =
        Except.error e2
      rfl
    | ok rc2 =>
      rw [hr1, hr2] at hrc
      simp [Except.map] at hrc
  | ok rc1 =>
    cases hr2 : c2.run_calibration with
    | error e2 =>
      rw [hr1, hr2] at hrc
      simp [Except.map] at hrc
    | ok rc2 =>
      rw [hr1, hr2] at hrc
      have hv : rcVals rc1 = rcVals rc2 := by simpa [Except.map] using hrc
      show (c1.runDispatch
          (match em with | none => c2.est_method | some e => e) sm rc1).map
          runVals =
        (c2.runDispatch
          (match em with | none => c2.est_method | some e => e) sm rc2).map
          runVals
      exact sameButPO_runDispatch h _ sm hv

/-- C8: calibration results are identical whether diagnostic printing is
enabled or disabled: two `run` calls on objects differing only in the
`print_output` flag return the same calibrated design-point table and the
same phi/gamma/psi factor tables (only the printed log may differ). -/
theorem c8_print_output_independence (cal : Calibration) (b1 b2 : Bool)
    (est_method : Option String) (set_max : Bool) :
    (({ cal with print_output := b1 } : Calibration).run est_method
        set_max).map runVals =
      (({ cal with print_output := b2 } : Calibration).run est_method
        set_max).map runVals := by
  apply sameButPO_run
  exact ⟨rfl, rfl, rfl, rfl, rfl, rfl, rfl, rfl, rfl, rfl⟩

/-- C10: calling `run` with an estimation method other than `"coeff"` and
`"matrix"` still executes the full per-case calibration, sets none of the
factor tables and raises no error: the unrecognised method is silently
ignored. -/
theorem c10_unknown_est_method_ignored (cal : Calibration) (em : String)
    (sm : Bool) (h1 : em ≠ "coeff") (h2 : em ≠ "matrix") :
    cal.run (some em) sm = (cal.run_calibration).map (fun rc =>
      { dfXstarcal := rc.dfXstarcal, df_phi := none, df_gamma := none,
        df_psi := none, log := rc.log }) := by
  unfold Calibration.run
  cases hr : cal.run_calibration with
  | error e =>
    show (Except.error e : Except PyErr RunResult) = Except.error e
    rfl
  | ok rc =>
    show cal.runDispatch em sm rc = Except.ok
      { dfXstarcal := rc.dfXstarcal, df_phi := none, df_gamma := none,
        df_psi := none, log := rc.log }
    unfold Calibration.runDispatch
    rw [if_neg h1, if_neg h2]

theorem c10_witness :
    calW.run (some "average") false = (calW.run_calibration).map (fun rc =>
      { dfXstarcal := rc.dfXstarcal, df_phi := none, df_gamma := none,
        df_psi := none, log := rc.log }) :=
  c10_unknown_est_method_ignored calW "average" false (by decide) (by decide)

/-- Any successful `alphaLoop` result whose fuel keeps `n_iter + fuel` equal
to the iteration cap either satisfies the `np.isclose` stopping criterion or
carries the abort message in its printed output. -/
theorem alphaLoop_cap_reported (cal : Calibration) (lcn : Option String)
    (po : Bool) (abstol : ℚ) (mi : ℕ) (cols : List String) :
    ∀ (fuel : ℕ) (st : AlphaState), st.n_iter + fuel = mi → 1 ≤ fuel →
      st.beta_cal = st.form_cal.beta →
      ∀ r, cal.alphaLoop lcn po abstol mi cols fuel st = Except.ok r →
        npIsClose r.1.2.beta cal.beta_t abstol = true ∨
          alphaAbortMsg mi ∈ r.2 := by
  intro fuel
  induction fuel with
  | zero =>
    intro st hsum hpos hb r hr
    omega
  | succ k ih =>
    intro st hsum hpos hb r hr
    unfold Calibration.alphaLoop at hr
    by_cases hc : npIsClose st.beta_cal cal.beta_t abstol
    · rw [if_pos hc] at hr
      have hre := Except.ok.inj hr
      rw [← hre]
      exact Or.inl (hb ▸ hc)
    · simp only [hc, if_false] at hr
      cases hbd : cal.alphaBody lcn po cols st with
      | error e =>
        rw [hbd] at hr
        have hr0 : (Except.error e :
            Except PyErr ((ℚ × FormRes) × List String)) = Except.ok r := hr
        exact Except.noConfusion hr0
      | ok st' =>
        rw [hbd] at hr
        have hr' : (if st'.n_iter = mi then
              Except.ok ((st'.z_cal, st'.form_cal),
                st'.log ++ [alphaAbortMsg mi])
            else cal.alphaLoop lcn po abstol mi cols k st') =
            Except.ok r := hr
        unfold Calibration.alphaBody at hbd
        cases hdp : cal.calc_design_param_Xst (fun c =>
            (st.form_cal.uToX (st.alpha_cal.map (fun a => a * cal.beta_t))).getD
              (cols.indexOf c) 0) with
        | error e =>
          rw [hdp] at hbd
          simp [Except.map] at hbd
        | ok z =>
          rw [hdp] at hbd
          have hst' := Except.ok.inj hbd
          have hni : st'.n_iter = st.n_iter + 1 := by rw [← hst']
          have hbb : st'.beta_cal = st'.form_cal.beta := by rw [← hst']
          by_cases hcap : st'.n_iter = mi
          · rw [if_pos hcap] at hr'
            have hre := Except.ok.inj hr'
            rw [← hre]
            exact Or.inr (List.mem_append_right _ (List.mem_singleton_self _))
          · rw [if_neg hcap] at hr'
            exact ih st' (by omega) (by omega) hbb r hr'

/-- Any successful `_calibration_alpha` run with a positive iteration cap
either meets the `np.isclose` criterion at the returned FORM object or has
printed the abort message. -/
theorem alpha_cap_reported (cal : Calibration) (lcn : Option String)
    (z0 tb : ℚ) (po : Bool) (abstol : ℚ) (maxiter : ℕ)
    (r : (ℚ × FormRes) × List String)
    (hr : cal.calibration_alpha lcn z0 tb po abstol (maxiter + 1) =
      Except.ok r) :
    npIsClose r.1.2.beta cal.beta_t abstol = true ∨
      alphaAbortMsg (maxiter + 1) ∈ r.2 :=
  alphaLoop_cap_reported cal lcn po abstol (maxiter + 1)
    (getDfXstarLabels (cal.rel lcn z0)) (maxiter + 1)
    { z_cal := z0, form_cal := cal.rel lcn z0,
      beta_cal := (cal.rel lcn z0).beta, alpha_cal := (cal.rel lcn z0).alpha,
      n_iter := 0, log := if po then [alphaIterMsg 0] else [] }
    (Nat.zero_add (maxiter + 1)) (Nat.succ_le_succ (Nat.zero_le maxiter))
    rfl r hr

/-- A copy of the concrete calibration object whose solver reports scipy's
non-convergence status (`ier = 5`) while returning the same iterate. -/
def calBadW : Calibration :=
  { calW with fsolve := fun _ p => ⟨p.x0, 5⟩ }

/-- C5: counterexample — a solver that reports success (`ier = 1`) and one
that reports non-convergence (`ier = 5`) at the same final iterate yield
byte-for-byte identical `_calibration_optimize` results, printed output
included: the solver's native non-convergence condition is discarded, so no
signal whatsoever reaches the caller. -/
theorem c5_counterexample :
    (calW.fsolve (fun _ => 0) ⟨1, 1 / 10000, none, some (1 / 100)⟩).ier = 1 ∧
      (calBadW.fsolve (fun _ => 0) ⟨1, 1 / 10000, none, some (1 / 100)⟩).ier
        = 5 ∧
      calW.calibration_optimize (some "LC1") 1 3 false (1 / 10000) none =
        calBadW.calibration_optimize (some "LC1") 1 3 false (1 / 10000) none :=
  ⟨rfl, rfl, rfl⟩

/-- C5 (amended): `_calibration_optimize` ignores the solver's convergence
status entirely — relabelling `ier` arbitrarily never changes its result —
and a successful `_calibration_alpha` run that misses the `np.isclose`
criterion at its returned iterate has reported the cap breach only as the
printed abort message; neither path returns a non-convergence flag. -/
theorem c5_nonconvergence_reporting (cal : Calibration)
    (m : SolverOutcome → ℕ) (lcn : Option String) (z0 tb : ℚ) (po : Bool)
    (xtol abstol : ℚ) (mfev : Option ℕ) (maxiter : ℕ) :
    ({ cal with fsolve := fun f p =>
          ⟨(cal.fsolve f p).x, m (cal.fsolve f p)⟩ } :
        Calibration).calibration_optimize lcn z0 tb po xtol mfev =
      cal.calibration_optimize lcn z0 tb po xtol mfev ∧
    ((cal.calibration_alpha lcn z0 tb po abstol (maxiter + 1)).toOption.map
        (fun r => npIsClose r.1.2.beta cal.beta_t abstol = true ∨
          alphaAbortMsg (maxiter + 1) ∈ r.2)).getD True := by
  constructor
  · rfl
  · cases ha : cal.calibration_alpha lcn z0 tb po abstol (maxiter + 1) with
    | error e => simp [Except.toOption]
    | ok r =>
      simp only [Except.toOption, Option.map, Option.getD]
      exact alpha_cap_reported cal lcn z0 tb po abstol maxiter r ha
